import Mathlib

/-!
Verification of the SIR integration and inverse-fitting engine of
src/code/functions.py (epidemiology_flux_model).

Shallow embedding conventions:
* numpy float arrays are modelled over the reals; a vector is a function
  from natural-number indices to the reals together with an explicit
  dimension parameter, a matrix likewise with two indices.  Entries beyond
  the stated dimension are irrelevant to every statement below.
* dates are modelled as integers (days); the date-keyed store of coupling
  matrices is a partial map from days to matrices.  The strftime key
  formatting is injective on calendar days, so a day is a faithful key.
* the external SciPy routines (solve_ivp, brentq) are not code of this
  repository; they are modelled as explicit function parameters, with an
  Option result where the routine reports failure.
* Python exceptions become an Except result carrying the raised error.
-/

open scoped Classical
open Finset

/-- A numpy 1-d float array: index function plus (separately passed) length. -/
abbrev Vec : Type := ℕ → ℝ

/-- A numpy 2-d float array: index function plus (separately passed) shape. -/
abbrev Mat : Type := ℕ → ℕ → ℝ

/-! ### SIR dynamics (functions.py lines 186-210) -/

/-- Embeds sir_X_to_SI: reshape the flattened state of length 2N into the
pair (S, I) of its first and last N entries. -/
def sir_X_to_SI (X : Vec) (N : ℕ) : Vec × Vec :=
  (fun i => X i, fun i => X (N + i))

/-- Embeds sir_SI_to_X: flatten the pair (S, I) of length-N vectors into a
single vector of length 2N, S first. -/
def sir_SI_to_X (S I : Vec) (N : ℕ) : Vec :=
  fun k => if k < N then S k else I (k - N)

/-- Embeds func_sir_dX(t, X, B, g): the SIR vector field.  The source reads
N from B.shape; here N is passed explicitly.  The argument t is accepted
and ignored, exactly as in the source. -/
noncomputable def func_sir_dX (_t : ℝ) (X : Vec) (B : Mat) (g : ℝ) (N : ℕ) : Vec :=
  let S := (sir_X_to_SI X N).1
  let I := (sir_X_to_SI X N).2
  let dS : Vec := fun i => -(S i * ∑ j ∈ range N, B i j * I j)
  let dI : Vec := fun i => -dS i - g * I i
  sir_SI_to_X dS dI N

/-- Embeds get_sir_omega_X(X, P): population-weighted fraction of
infected-or-recovered individuals, computed from the S half of X. -/
noncomputable def get_sir_omega_X (X : Vec) (P : Vec) (N : ℕ) : ℝ :=
  (∑ a ∈ range N, (1 - X a) * P a) / (∑ a ∈ range N, P a)

/-! ### Infectivity matrix (functions.py lines 162-183) -/

/-- Embeds get_infectivity_matrix(F) for an input of shape R x C.  The
source raises ValueError when the shape is not square (modelled as none);
otherwise it extracts the diagonal p, inverts its positive entries, forms
F + F.T with the diagonal overwritten by p, scales row i by the inverted
diagonal entry, and symmetrizes. -/
noncomputable def get_infectivity_matrix (R C : ℕ) (F : Mat) : Option Mat :=
  if C ≠ R then none
  else
    let pvec : Vec := fun i => F i i
    let pinv : Vec := fun i => if 0 < pvec i then (pvec i)⁻¹ else 0
    let L1 : Mat := fun i j => if i = j then pvec i else F i j + F j i
    let L2 : Mat := fun i j => pinv i * L1 i j
    some (fun i j => (1 / 2) * (L2 i j + L2 j i))

/-! ### Epidemic-size fixed point solver (functions.py lines 262-289) -/

/-- One update of the fixed-point iteration of get_epidemic_size:
Xnew = (1/gamma) * M @ (1 - (1-eps)*exp(-X)). -/
noncomputable def epidemicStep (N : ℕ) (M : Mat) (eps : Vec) (gamma : ℝ) (X : Vec) : Vec :=
  fun a => (1 / gamma) * ∑ b ∈ range N, M a b * (1 - (1 - eps b) * Real.exp (-(X b)))

/-- Euclidean norm of the first N entries (np.linalg.norm). -/
noncomputable def vecNorm (N : ℕ) (V : Vec) : ℝ :=
  Real.sqrt (∑ i ∈ range N, (V i) ^ 2)

/-- The break test of get_epidemic_size:
rtol = norm(X - Xnew) / (norm(X) + norm(Xnew)) * 2 < rtol_stop.
In the source this is IEEE float arithmetic: when both norms are 0 the
quotient is 0/0 = NaN and the comparison NaN < rtol_stop is False, so the
loop does not break; the conjunct 0 < norm X + norm Xnew models exactly
that behaviour (the numerator is forced to 0 whenever the denominator is). -/
noncomputable def stopCrit (N : ℕ) (rtol_stop : ℝ) (X Xnew : Vec) : Prop :=
  0 < vecNorm N X + vecNorm N Xnew ∧
    vecNorm N (fun i => X i - Xnew i) / (vecNorm N X + vecNorm N Xnew) * 2 < rtol_stop

/-- The iteration loop of get_epidemic_size, with the remaining iteration
count as fuel.  At each executed iteration the source sets X := Xnew,
computes Xnew := step X and breaks when the tolerance test passes; after
the loop (broken or exhausted) the returned quantity is derived from X,
the iterate from which the final update was computed.  The last iteration
leaves X regardless of the test, so fuel 1 returns the current iterate.
Fuel 0 (itermax = 0) would be a Python NameError and is never used. -/
noncomputable def epidemicLoop (N : ℕ) (M : Mat) (eps : Vec) (gamma rtol_stop : ℝ) :
    ℕ → Vec → Vec
  | 0, Xcur => Xcur
  | 1, Xcur => Xcur
  | r + 2, Xcur =>
      if stopCrit N rtol_stop Xcur (epidemicStep N M eps gamma Xcur) then Xcur
      else epidemicLoop N M eps gamma rtol_stop (r + 1) (epidemicStep N M eps gamma Xcur)

/-- The iterate sequence of the fixed-point map, starting from X_0 = 0. -/
noncomputable def epIter (N : ℕ) (M : Mat) (eps : Vec) (gamma : ℝ) (k : ℕ) : Vec :=
  (epidemicStep N M eps gamma)^[k] (fun _ => 0)

/-- Embeds get_epidemic_size(M, epsilon_i, gamma, itermax, rtol_stop).
The source finally forms B = 1 - (1-eps)*exp(-X) from the X left by the
loop and returns np.sum(B)/N.  The square/length guards of the source
(ValueError on shape mismatch) are outside this model: N is the common
dimension of all arguments. -/
noncomputable def get_epidemic_size (N : ℕ) (M : Mat) (eps : Vec) (gamma : ℝ)
    (itermax : ℕ) (rtol_stop : ℝ) : ℝ :=
  let Xfin := epidemicLoop N M eps gamma rtol_stop itermax (fun _ => 0)
  (∑ a ∈ range N, (1 - (1 - eps a) * Real.exp (-(Xfin a)))) / N

/-! ### Bracket expansion loops (functions.py lines 300-313 and 443-453) -/

/-- The common bracket-expansion loop: n times, evaluate fhi = f xhi and
break when fhi > 0, otherwise multiply xhi by c.  Returns the final
(xhi, fhi) pair of the source: on a break xhi is unchanged, on exhaustion
the final multiplication has already happened while fhi is the value at the
last point examined.  Fuel 0 corresponds to an empty Python loop, after
which fhi would be unbound; it is never used. -/
noncomputable def bracketLoop (f : ℝ → ℝ) (c : ℝ) : ℕ → ℝ → ℝ × ℝ
  | 0, x => (x, 0)
  | 1, x => if 0 < f x then (x, f x) else (x * c, f x)
  | n + 2, x => if 0 < f x then (x, f x) else bracketLoop f c (n + 1) (x * c)

/-- The function whose root get_target_scale seeks:
x mapsto get_epidemic_size(x*M, Ii, gamma) - target. -/
noncomputable def target_func_root (N : ℕ) (M : Mat) (Ii : Vec) (gamma target : ℝ)
    (itermax : ℕ) (rtol_stop : ℝ) : ℝ → ℝ :=
  fun x => get_epidemic_size N (fun a b => x * M a b) Ii gamma itermax rtol_stop - target

/-- Outcome of the initial-bracketing phase of get_target_scale (lines
300-313): the lower-bound check at xlo = 1e-5, then ten expansion attempts
multiplying xhi by 10, then the final sign check. -/
inductive BracketOutcome
  | lowerBoundError
  | bracketError
  | bracket (xlo xhi : ℝ)

/-- Embeds the bracketing phase of get_target_scale(M, Ii, gamma, target,
rtol_stop, itermax).  The subsequent brentq call is external to the
repository and not needed by any claim about this function. -/
noncomputable def get_target_scale_bracket (N : ℕ) (M : Mat) (Ii : Vec)
    (gamma target : ℝ) (itermax : ℕ) (rtol_stop : ℝ) : BracketOutcome :=
  let f := target_func_root N M Ii gamma target itermax rtol_stop
  let xlo : ℝ := 1 / 100000
  if 0 < f xlo then .lowerBoundError
  else
    let r := bracketLoop f 10 10 xlo
    if r.2 < 0 then .bracketError else .bracket xlo r.1

/-- get_target_scale raises a ValueError during bracketing. -/
noncomputable def get_target_scale_raises (N : ℕ) (M : Mat) (Ii : Vec)
    (gamma target : ℝ) (itermax : ℕ) (rtol_stop : ℝ) : Prop :=
  get_target_scale_bracket N M Ii gamma target itermax rtol_stop = .lowerBoundError ∨
    get_target_scale_bracket N M Ii gamma target itermax rtol_stop = .bracketError

/-! ### Day-stepped trajectory integrator and fit engine
(functions.py lines 153-160, 243-260, 319-383, 385-491) -/

/-- Python exceptions raised by integrate_sir / fit_sir.  A KeyError
carries the missing key (whose formatted text contains the date); a
ValueError carries exactly the message string of the raise statement. -/
inductive PyErr
  | keyError (day : ℤ)
  | valueError (msg : String)
  | indexError
deriving DecidableEq

/-- The external date-keyed store of coupling matrices: functions.py keys
it by path / t.strftime(tfmt), which is injective on days, so a day stands
for its key.  read_df (lines 153-160) is store lookup; a missing key is a
Python KeyError. -/
abbrev Store : Type := ℤ → Option Mat

/-- The external adaptive ODE solver (scipy.integrate.solve_ivp) called
with t_eval = 0, 1, ..., dt: given the initial state, the day span, the
scaled coupling matrix and gamma, it returns the sampled states per whole
day, or none when it reports failure. -/
abbrev OdeSolver : Type := Vec → ℕ → Mat → ℝ → Option (ℕ → Vec)

/-- The loop of integrate_sir over the consecutive time points, paired with
their scales.  State: current day t, current coupling matrix B (reused when
the store has no entry for t), current state X.  Per step it appends the
solver samples at days 1..dt (the duplicate start point excluded) and the
matching dates, and aborts with the ValueError of the source when the
solver fails. -/
noncomputable def integrateLoop (ode : OdeSolver) (gamma : ℝ) (store : Store) :
    ℤ → Mat → Vec → List (ℤ × ℝ) → Except PyErr (List ℤ × List Vec)
  | _, _, _, [] => .ok ([], [])
  | t, B, X, (tnew, s) :: rest =>
      let B' := match store t with | some M2 => M2 | none => B
      let dt : ℕ := (tnew - t).toNat
      match ode X dt (fun a b => B' a b * s) gamma with
      | none => .error (.valueError ("integration failed!"))
      | some sols =>
          match integrateLoop ode gamma store tnew B' (sols dt) rest with
          | .error e => .error e
          | .ok (ts, xs) =>
              .ok ((List.range dt).map (fun k : ℕ => t + ((k : ℤ) + 1)) ++ ts,
                   (List.range dt).map (fun k => sols (k + 1)) ++ xs)

/-- First and second halves of a flattened state, as length-N vectors
(the reshape performed by sir_X_to_SI on the dumped trajectory). -/
def toS (N : ℕ) (X : Vec) : Fin N → ℝ := fun i => X i.val
def toI (N : ℕ) (X : Vec) : Fin N → ℝ := fun i => X (N + i.val)

/-- Embeds integrate_sir(Xi, times, scales, gamma, store, pathtoloc).
In source order: times[0] is read (IndexError on an empty list), the
coupling matrix keyed at times[0] is read unconditionally (KeyError when
absent), the scales length is checked (ValueError), then the day-stepped
loop runs; finally the collected states are reshaped into the S and I
tables.  N is B.shape[0] in the source, a parameter here. -/
noncomputable def integrate_sir (N : ℕ) (ode : OdeSolver) (Xi : Vec) (times : List ℤ)
    (scales : List ℝ) (gamma : ℝ) (store : Store) :
    Except PyErr (List ℤ × List (Fin N → ℝ) × List (Fin N → ℝ)) :=
  match times with
  | [] => .error .indexError
  | t0 :: trest =>
      match store t0 with
      | none => .error (.keyError t0)
      | some B0 =>
          if scales.length ≠ times.length - 1 then
            .error (.valueError ("scales must be of length " ++ toString (times.length - 1)))
          else
            match integrateLoop ode gamma store t0 B0 Xi (trest.zip scales) with
            | .error e => .error e
            | .ok (ts, xs) =>
                .ok (t0 :: ts, (Xi :: xs).map (toS N), (Xi :: xs).map (toI N))

/-- The external root finder (scipy.optimize.root_scalar with brentq):
given the function and the bracket it returns the root, or none when it
reports non-convergence. -/
abbrev Brentq : Type := (ℝ → ℝ) → ℝ → ℝ → Option ℝ

/-- The external ODE solver as used inside fit_sir via compute_sir_X.  The
claims settled against fit_sir do not involve solver failure, so it is
modelled total: day-sampled states for every input. -/
abbrev OdeTotal : Type := Vec → ℕ → Mat → ℝ → (ℕ → Vec)

/-- The closure func_root of fit_sir (lines 440-441): b mapsto
get_sir_omega_X(compute_sir_X(X, dt, b*B, gamma), population) - ypred,
where compute_sir_X returns the final sample of the solver. -/
noncomputable def fit_func_root (odeint : OdeTotal) (N : ℕ) (X : Vec) (dt : ℕ)
    (B : Mat) (gamma : ℝ) (P : Vec) (ypred : ℝ) : ℝ → ℝ :=
  fun b => get_sir_omega_X (odeint X dt (fun a c => b * B a c) gamma dt) P N - ypred

/-- The loop of fit_sir over time points 1..nt-1 with their target
fractions.  State: current day t, current matrix B, current state X, the
bracket start b (the caller-supplied b_scale, then each accepted root).
Per step: staleness fallback for B, bracket expansion by factor 3 over the
nine attempts k = 1..9 of the source (raising the bracketing ValueError
when the last examined value is still negative), then the external brentq
on (0, bhi) (raising the root-finding ValueError on non-convergence), then
re-integration at the root.  The source appends dt dates but only the one
final state per step (compute_sir_X discards the intermediate samples);
both lists are reproduced faithfully. -/
noncomputable def fitLoop (odeint : OdeTotal) (brentq : Brentq) (N : ℕ) (gamma : ℝ)
    (P : Vec) (store : Store) :
    ℤ → Mat → Vec → ℝ → List ℤ → List ℝ → Except PyErr (List ℤ × List Vec × List ℝ)
  | _, _, _, _, [], _ => .ok ([], [], [])
  | t, B, X, b, tnew :: trest, ys =>
      match ys with
      | [] => .error .indexError
      | ypred :: yrest =>
          let B' := match store t with | some M2 => M2 | none => B
          let dt : ℕ := (tnew - t).toNat
          let f := fit_func_root odeint N X dt B' gamma P ypred
          let r := bracketLoop f 3 9 b
          if r.2 < 0 then .error (.valueError ("Problem in bracketing!"))
          else
            match brentq f 0 r.1 with
            | none => .error (.valueError ("root finding failed!"))
            | some broot =>
                let sols := odeint X dt (fun a c => broot * B' a c) gamma
                match fitLoop odeint brentq N gamma P store tnew B' (sols dt) broot
                    trest yrest with
                | .error e => .error e
                | .ok (ts, xs, bs) =>
                    .ok ((List.range dt).map (fun k : ℕ => t + ((k : ℤ) + 1)) ++ ts,
                         sols dt :: xs, broot :: bs)

/-- Embeds fit_sir(times, T_real, gamma, population, store, pathtoloc,
b_scale).  In source order: times[0] (IndexError on empty), the coupling
matrix keyed at times[0] read unconditionally (KeyError when absent), the
weighted observed fractions Y_real, the initial state from T_real[0]
(IndexError on empty), then the fitting loop pairing times[i] with
Y_real[i] for i >= 1 (running out of observed rows is the IndexError of
Y_real[i]).  The trailing None appended to b_scales and the final dataframe
packaging carry no further information and are not modelled. -/
noncomputable def fit_sir (odeint : OdeTotal) (brentq : Brentq) (N : ℕ)
    (times : List ℤ) (Treal : List Vec) (gamma : ℝ) (P : Vec) (store : Store)
    (b_scale : ℝ) : Except PyErr (List ℤ × List Vec × List ℝ) :=
  match times with
  | [] => .error .indexError
  | t0 :: trest =>
      match store t0 with
      | none => .error (.keyError t0)
      | some B0 =>
          match Treal with
          | [] => .error .indexError
          | T0 :: _ =>
              let Ys := Treal.map (fun row =>
                (∑ a ∈ range N, row a * P a) / (∑ a ∈ range N, P a))
              let X0 := sir_SI_to_X (fun i => 1 - T0 i) T0 N
              match fitLoop odeint brentq N gamma P store t0 B0 X0 b_scale trest
                  Ys.tail with
              | .error e => .error e
              | .ok (ts, xs, bs) => .ok (t0 :: ts, X0 :: xs, bs)

/-! ### Concrete instances used to evaluate the embedded functions -/

/-- The all-zeros N x N matrix. -/
noncomputable def zeroMat : Mat := fun _ _ => 0

/-- The all-ones N x N matrix. -/
noncomputable def oneMat : Mat := fun _ _ => 1

/-- The all-zeros vector. -/
noncomputable def zeroVec : Vec := fun _ => 0

/-- The all-ones vector (used as a population of one per community). -/
noncomputable def oneVec : Vec := fun _ => 1

/-- The constant one-half vector (a seed of one half per community). -/
noncomputable def halfVec : Vec := fun _ => 1 / 2

/-- A store holding the all-ones coupling matrix for every day. -/
noncomputable def storeOne : Store := fun _ => some oneMat

/-- A store with no entry for any day. -/
def storeEmpty : Store := fun _ => none

/-- A total solver model whose final state has S_0 = 1, I_0 = 0: the
predicted infected fraction is always 0. -/
noncomputable def odeConstS1 : OdeTotal :=
  fun _X _dt _M _g => fun _k => fun i => if i = 0 then 1 else 0

/-- A total solver model that reads the scaled coupling matrix: with the
all-ones matrix, population one and target 0, the resulting func_root of
the fitting step is b mapsto b - 19682. -/
noncomputable def odeReadScale : OdeTotal :=
  fun _X _dt M _g => fun _k => fun i => if i = 0 then 1 - (M 0 0 - 19682) else 0

/-- An external root finder that always reports non-convergence. -/
def brentqNone : Brentq := fun _ _ _ => none

/-- A successful ODE solver model: constant-in-time trajectory. -/
noncomputable def odeConstTraj : OdeSolver := fun X _dt _M _g => some (fun _ => X)

/-! ### Theorems -/

/-- Claim C1: for every coupling matrix B of shape N x N, every flattened
state X whose first N entries are S and last N entries are I, and every
recovery rate g, func_sir_dX(t, X, B, g) returns the flattened pair
(dS, dI) with dS_i = -S_i * sum_j B_ij I_j and dI_i = -dS_i - g I_i for
every i < N, independently of t (the right-hand sides do not mention t). -/
theorem claim_C1 (N : ℕ) (t : ℝ) (X : Vec) (B : Mat) (g : ℝ) (i : ℕ) (hi : i < N) :
    func_sir_dX t X B g N i = -(X i * ∑ j ∈ range N, B i j * X (N + j)) ∧
      func_sir_dX t X B g N (N + i) =
        X i * (∑ j ∈ range N, B i j * X (N + j)) - g * X (N + i) := by
  have h2 : ¬(N + i < N) := by omega
  have h3 : N + i - N = i := by omega
  constructor
  · simp [func_sir_dX, sir_SI_to_X, sir_X_to_SI, hi]
  · simp [func_sir_dX, sir_SI_to_X, sir_X_to_SI, h2, h3]

/-- Witness for claim C1 at N = 1, i = 0, constant state and matrix. -/
theorem claim_C1_witness :
    func_sir_dX 0 (fun _ => 1) (fun _ _ => 1) 1 1 0 =
        -((1 : ℝ) * ∑ j ∈ range 1, (1 : ℝ) * 1) ∧
      func_sir_dX 0 (fun _ => 1) (fun _ _ => 1) 1 1 (1 + 0) =
        (1 : ℝ) * (∑ j ∈ range 1, (1 : ℝ) * 1) - 1 * 1 :=
  claim_C1 1 0 (fun _ => 1) (fun _ _ => 1) 1 0 Nat.one_pos

/-- Claim C6: for every state X = (S, I), coupling matrix B and g >= 0,
the derivative returned by func_sir_dX satisfies dS_i + dI_i = -g I_i for
every community i < N; hence whenever I_i >= 0 the per-community sum
S_i + I_i has non-positive instantaneous rate of change. -/
theorem claim_C6 (N : ℕ) (t : ℝ) (X : Vec) (B : Mat) (g : ℝ) (i : ℕ) (hi : i < N) :
    func_sir_dX t X B g N i + func_sir_dX t X B g N (N + i) = -(g * X (N + i)) ∧
      (0 ≤ g → 0 ≤ X (N + i) →
        func_sir_dX t X B g N i + func_sir_dX t X B g N (N + i) ≤ 0) := by
  have h2 : ¬(N + i < N) := by omega
  have h3 : N + i - N = i := by omega
  have key : func_sir_dX t X B g N i + func_sir_dX t X B g N (N + i) =
      -(g * X (N + i)) := by
    simp [func_sir_dX, sir_SI_to_X, sir_X_to_SI, hi, h2, h3]
    ring
  refine ⟨key, fun hg hI => ?_⟩
  rw [key]
  exact neg_nonpos.mpr (mul_nonneg hg hI)

/-- Witness for claim C6 at N = 1, i = 0, g = 1 and a nonnegative state. -/
theorem claim_C6_witness :
    (func_sir_dX 0 (fun _ => 1) (fun _ _ => 1) 1 1 0 +
          func_sir_dX 0 (fun _ => 1) (fun _ _ => 1) 1 1 (1 + 0) =
        -((1 : ℝ) * 1)) ∧
      (func_sir_dX 0 (fun _ => 1) (fun _ _ => 1) 1 1 0 +
          func_sir_dX 0 (fun _ => 1) (fun _ _ => 1) 1 1 (1 + 0) ≤ 0) := by
  have h := claim_C6 1 0 (fun _ => 1) (fun _ _ => 1) 1 0 Nat.one_pos
  exact ⟨h.1, h.2 zero_le_one zero_le_one⟩

/-- Claim C3: for every flux matrix F of shape R x C, get_infectivity_matrix
returns none (raises) exactly when the shape is not square, and otherwise
the matrix whose (i, j) entry is
(1/2) * (p_i_inv * L_ij + p_j_inv * L_ji), where p_i_inv inverts the
diagonal entry F_ii when positive and is 0 otherwise, and L is F + F^T
with its diagonal replaced by the p vector: the row-scaled sum,
symmetrized as 0.5 (L + L^T). -/
theorem claim_C3 (R C : ℕ) (F : Mat) :
    get_infectivity_matrix R C F =
      if C = R then
        some (fun i j =>
          (1 / 2) *
            ((if 0 < F i i then (F i i)⁻¹ else 0) *
                (if i = j then F i i else F i j + F j i) +
              (if 0 < F j j then (F j j)⁻¹ else 0) *
                (if j = i then F j j else F j i + F i j)))
      else none := by
  by_cases h : C = R
  · simp [get_infectivity_matrix, h]
  · simp [get_infectivity_matrix, h]

/-! #### Characterization of the bracket-expansion loop -/

/-- If none of the n examined points brings f above 0, the loop exhausts
its attempts: the final xhi has been multiplied n times and the final fhi
is the value at the last examined point x * c ^ (n-1). -/
theorem bracketLoop_no_hit (f : ℝ → ℝ) (c : ℝ) :
    ∀ n, 1 ≤ n → ∀ x, (∀ k, k < n → ¬0 < f (x * c ^ k)) →
      bracketLoop f c n x = (x * c ^ n, f (x * c ^ (n - 1))) := by
  intro n
  induction n using Nat.twoStepInduction with
  | zero => intro h; omega
  | one =>
      intro _ x hx
      have h0 : ¬0 < f x := by simpa using hx 0 Nat.one_pos
      simp [bracketLoop, h0, pow_one]
  | more m _ ih =>
      intro _ x hx
      have h0 : ¬0 < f x := by simpa using hx 0 (Nat.succ_pos (m + 1))
      have hrec := ih (Nat.le_add_left 1 m) (x * c) (fun k hk => by
        have := hx (k + 1) (by omega)
        simpa [pow_succ, mul_comm, mul_assoc, mul_left_comm] using this)
      have h1 : x * c * c ^ (m + 1) = x * c ^ (m + 2) := by ring
      have h2 : x * c * c ^ (m + 1 - 1) = x * c ^ (m + 1) := by
        simp only [Nat.add_sub_cancel]
        ring
      calc bracketLoop f c (m + 2) x = bracketLoop f c (m + 1) (x * c) := by
            simp [bracketLoop, h0]
        _ = (x * c ^ (m + 2), f (x * c ^ (m + 1))) := by
            rw [hrec, h1, h2]

/-- If the first point brought above 0 by f is the K-th (K < n), the loop
breaks there: both components of the result are taken at x * c ^ K. -/
theorem bracketLoop_hit (f : ℝ → ℝ) (c : ℝ) :
    ∀ K n x, K < n → 0 < f (x * c ^ K) → (∀ j, j < K → ¬0 < f (x * c ^ j)) →
      bracketLoop f c n x = (x * c ^ K, f (x * c ^ K)) := by
  intro K
  induction K with
  | zero =>
      intro n x hn hpos _
      have hx : 0 < f x := by simpa using hpos
      match n, hn with
      | 1, _ => simp [bracketLoop, hx]
      | m + 2, _ => simp [bracketLoop, hx]
  | succ K ih =>
      intro n x hn hpos hprev
      have h0 : ¬0 < f x := by simpa using hprev 0 (Nat.succ_pos K)
      match n, hn with
      | m + 2, hn =>
          have hrec := ih (m + 1) (x * c) (by omega)
            (by simpa [pow_succ, mul_comm, mul_assoc, mul_left_comm] using hpos)
            (fun j hj => by
              have := hprev (j + 1) (by omega)
              simpa [pow_succ, mul_comm, mul_assoc, mul_left_comm] using this)
          calc bracketLoop f c (m + 2) x = bracketLoop f c (m + 1) (x * c) := by
                simp [bracketLoop, h0]
            _ = (x * c ^ (K + 1), f (x * c ^ (K + 1))) := by
                rw [hrec]
                have hxc : x * c * c ^ K = x * c ^ (K + 1) := by ring
                rw [hxc]

/-! #### The scaled zero matrix gives a constant epidemic size -/

/-- One fixed-point update under the scaled zero matrix is the zero vector. -/
theorem epidemicStep_zeroM (x : ℝ) (eps : Vec) (g : ℝ) (X : Vec) :
    epidemicStep 1 (fun a b => x * zeroMat a b) eps g X = fun _ => 0 := by
  funext a
  simp [epidemicStep, zeroMat]

/-- Under the scaled zero matrix the loop never leaves the zero vector
(the tolerance quotient is NaN there, so the loop never breaks, but every
iterate is zero anyway). -/
theorem epidemicLoop_zeroM (x : ℝ) (eps : Vec) (g s : ℝ) :
    ∀ r, epidemicLoop 1 (fun a b => x * zeroMat a b) eps g s r (fun _ => 0) =
      fun _ => 0 := by
  intro r
  induction r using Nat.twoStepInduction with
  | zero => rfl
  | one => rfl
  | more m _ ih =>
      have hst := epidemicStep_zeroM x eps g (fun _ => 0)
      simp only [epidemicLoop, hst]
      by_cases h : stopCrit 1 s (fun _ => 0) (fun _ => 0)
      · simp [h]
      · simp only [if_neg h]
        exact ih

/-- The epidemic size of any scaling of the zero matrix with the one-half
seed is exactly one half, for every gamma, itermax and tolerance. -/
theorem ges_zeroM (x g s : ℝ) (r : ℕ) :
    get_epidemic_size 1 (fun a b => x * zeroMat a b) halfVec g r s = 1 / 2 := by
  unfold get_epidemic_size
  rw [epidemicLoop_zeroM]
  norm_num [halfVec]

/-- The root function of get_target_scale vanishes identically for the
zero matrix and target one half. -/
theorem target_root_zeroM (g s y : ℝ) (r : ℕ) :
    target_func_root 1 zeroMat halfVec g (1 / 2) r s y = 0 := by
  simp [target_func_root, ges_zeroM]

/-- Claim C4 (amended): get_target_scale raises an error if and only if
either the epidemic size at the fixed lower scale 1e-5 strictly exceeds
the target, or none of the ten geometrically grown scales
1e-5 * 10^k (k < 10) gives an epidemic size above the target AND the size
at the last examined scale 1e-5 * 10^9 is strictly below the target.  (The
original claim omits the second conjunct: when the last examined size
equals the target exactly, the source does not raise.) -/
theorem claim_C4_amended (N : ℕ) (M : Mat) (Ii : Vec) (gamma target : ℝ)
    (itermax : ℕ) (rtol_stop : ℝ) :
    get_target_scale_raises N M Ii gamma target itermax rtol_stop ↔
      (0 < target_func_root N M Ii gamma target itermax rtol_stop (1 / 100000) ∨
        ((∀ k, k < 10 → ¬0 < target_func_root N M Ii gamma target itermax rtol_stop
            ((1 / 100000) * 10 ^ k)) ∧
          target_func_root N M Ii gamma target itermax rtol_stop
            ((1 / 100000) * 10 ^ 9) < 0)) := by
  by_cases h0 : 0 < target_func_root N M Ii gamma target itermax rtol_stop (1 / 100000)
  · have houtcome : get_target_scale_bracket N M Ii gamma target itermax rtol_stop =
        .lowerBoundError := by
      simp only [get_target_scale_bracket]
      rw [if_pos h0]
    constructor
    · intro _
      exact Or.inl h0
    · intro _
      exact Or.inl houtcome
  · have hshape : get_target_scale_raises N M Ii gamma target itermax rtol_stop ↔
        (bracketLoop (target_func_root N M Ii gamma target itermax rtol_stop) 10 10
          (1 / 100000)).2 < 0 := by
      simp only [get_target_scale_raises, get_target_scale_bracket, if_neg h0]
      by_cases hb : (bracketLoop (target_func_root N M Ii gamma target itermax rtol_stop)
          10 10 (1 / 100000)).2 < 0
      · simp only [if_pos hb]
        exact iff_of_true (Or.inr trivial) hb
      · simp only [if_neg hb]
        refine iff_of_false ?_ hb
        rintro (h | h) <;> exact BracketOutcome.noConfusion h
    by_cases hex : ∃ k, k < 10 ∧
        0 < target_func_root N M Ii gamma target itermax rtol_stop ((1 / 100000) * 10 ^ k)
    · obtain ⟨hK10, hKpos⟩ := Nat.find_spec hex
      have hmin : ∀ j, j < Nat.find hex →
          ¬0 < target_func_root N M Ii gamma target itermax rtol_stop
            ((1 / 100000) * 10 ^ j) := by
        intro j hj
        have := Nat.find_min hex hj
        intro hpos
        exact this ⟨lt_trans hj hK10, hpos⟩
      have heq := bracketLoop_hit
        (target_func_root N M Ii gamma target itermax rtol_stop) 10 (Nat.find hex) 10
        (1 / 100000) hK10 hKpos hmin
      rw [hshape, heq]
      constructor
      · intro hlt
        exact absurd hKpos (not_lt.mpr (le_of_lt hlt))
      · rintro (h | ⟨hall, _⟩)
        · exact absurd h h0
        · exact absurd hKpos (hall _ hK10)
    · have hall : ∀ k, k < 10 →
          ¬0 < target_func_root N M Ii gamma target itermax rtol_stop
            ((1 / 100000) * 10 ^ k) := by
        intro k hk hpos
        exact hex ⟨k, hk, hpos⟩
      have heq := bracketLoop_no_hit
        (target_func_root N M Ii gamma target itermax rtol_stop) 10 10 (by norm_num)
        (1 / 100000) hall
      rw [hshape, heq]
      constructor
      · intro hlt
        exact Or.inr ⟨hall, hlt⟩
      · rintro (h | ⟨_, hlt⟩)
        · exact absurd h h0
        · exact hlt

/-- Counterexample to claim C4 as stated: with the zero coupling matrix,
seed one half and target one half, the epidemic size equals the target at
every scale, so the size never strictly exceeds the target at any of the
ten attempts -- by the claim the call must raise -- yet get_target_scale
does not raise (it proceeds to root finding with a zero-valued bracket). -/
theorem claim_C4_counterexample :
    ¬(get_target_scale_raises 1 zeroMat halfVec 1 (1 / 2) 100 (1 / 10 ^ 8) ↔
      (1 / 2 < get_epidemic_size 1 (fun a b => (1 / 100000) * zeroMat a b) halfVec 1 100
          (1 / 10 ^ 8) ∨
        ∀ k, k < 10 →
          get_epidemic_size 1 (fun a b => ((1 / 100000) * 10 ^ k) * zeroMat a b) halfVec 1
            100 (1 / 10 ^ 8) ≤ 1 / 2)) := by
  have hges : ∀ y : ℝ,
      get_epidemic_size 1 (fun a b => y * zeroMat a b) halfVec 1 100 (1 / 10 ^ 8) =
        1 / 2 := fun y => ges_zeroM y 1 (1 / 10 ^ 8) 100
  have hrootzero : ∀ y : ℝ,
      target_func_root 1 zeroMat halfVec 1 (1 / 2) 100 (1 / 10 ^ 8) y = 0 :=
    fun y => target_root_zeroM 1 (1 / 10 ^ 8) y 100
  have hnoraise : ¬get_target_scale_raises 1 zeroMat halfVec 1 (1 / 2) 100 (1 / 10 ^ 8) := by
    rw [claim_C4_amended]
    rintro (h | ⟨_, hlt⟩)
    · rw [hrootzero] at h
      exact lt_irrefl 0 h
    · rw [hrootzero] at hlt
      exact lt_irrefl 0 hlt
  intro hiff
  exact hnoraise (hiff.mpr (Or.inr (fun k _ => le_of_eq (hges _))))

/-! #### The fitting-step bracket (fit_sir, lines 443-453) -/

/-- The func_root of a fitting step under odeReadScale with the all-ones
matrix, population one and the one-community aggregate: b mapsto
b - 19682 - ypred. -/
theorem fit_root_readScale (X : Vec) (dt : ℕ) (yp b : ℝ) :
    fit_func_root odeReadScale 1 X dt oneMat 1 oneVec yp b = b - 19682 - yp := by
  simp [fit_func_root, odeReadScale, get_sir_omega_X, oneVec, oneMat]

/-- The func_root of a fitting step under odeConstS1 (final state fully
susceptible): constantly - ypred. -/
theorem fit_root_constS1 (X : Vec) (dt : ℕ) (B : Mat) (g : ℝ) (yp b : ℝ) :
    fit_func_root odeConstS1 1 X dt B g oneVec yp b = -yp := by
  simp [fit_func_root, odeConstS1, get_sir_omega_X, oneVec]

/-- Claim C5 (amended): in each fitting step of fit_sir the bracket lower
bound is 0 and the upper bound starts from the previous accepted scale b
and is multiplied by 3 per attempt for up to NINE attempts (the source
loop runs k = 1..9): the step raises the bracketing error exactly when
none of the nine examined scales b * 3^k (k < 9) brings the predicted
aggregate fraction above the target and the value at the last examined
scale b * 3^8 is strictly below it.  (The original claim says ten
attempts.) -/
theorem claim_C5_amended (odeint : OdeTotal) (brentq : Brentq) (N : ℕ) (gamma : ℝ)
    (P : Vec) (store : Store) (t tnew : ℤ) (B : Mat) (X : Vec) (b ypred : ℝ)
    (trest : List ℤ) (yrest : List ℝ) (hstore : store t = none) :
    ((bracketLoop (fit_func_root odeint N X (tnew - t).toNat B gamma P ypred) 3 9 b).2 < 0 ↔
      ((∀ k, k < 9 →
          ¬0 < fit_func_root odeint N X (tnew - t).toNat B gamma P ypred (b * 3 ^ k)) ∧
        fit_func_root odeint N X (tnew - t).toNat B gamma P ypred (b * 3 ^ 8) < 0)) ∧
    ((∀ k, k < 9 →
        ¬0 < fit_func_root odeint N X (tnew - t).toNat B gamma P ypred (b * 3 ^ k)) →
      fit_func_root odeint N X (tnew - t).toNat B gamma P ypred (b * 3 ^ 8) < 0 →
      fitLoop odeint brentq N gamma P store t B X b (tnew :: trest) (ypred :: yrest) =
        .error (.valueError ("Problem in bracketing!"))) := by
  have hiff : (bracketLoop (fit_func_root odeint N X (tnew - t).toNat B gamma P ypred)
      3 9 b).2 < 0 ↔
      ((∀ k, k < 9 →
          ¬0 < fit_func_root odeint N X (tnew - t).toNat B gamma P ypred (b * 3 ^ k)) ∧
        fit_func_root odeint N X (tnew - t).toNat B gamma P ypred (b * 3 ^ 8) < 0) := by
    by_cases hex : ∃ k, k < 9 ∧
        0 < fit_func_root odeint N X (tnew - t).toNat B gamma P ypred (b * 3 ^ k)
    · obtain ⟨hK9, hKpos⟩ := Nat.find_spec hex
      have hmin : ∀ j, j < Nat.find hex →
          ¬0 < fit_func_root odeint N X (tnew - t).toNat B gamma P ypred (b * 3 ^ j) := by
        intro j hj hpos
        exact Nat.find_min hex hj ⟨lt_trans hj hK9, hpos⟩
      rw [bracketLoop_hit _ 3 (Nat.find hex) 9 b hK9 hKpos hmin]
      constructor
      · intro hlt
        exact absurd hKpos (not_lt.mpr (le_of_lt hlt))
      · rintro ⟨hall, _⟩
        exact absurd hKpos (hall _ hK9)
    · have hall : ∀ k, k < 9 →
          ¬0 < fit_func_root odeint N X (tnew - t).toNat B gamma P ypred (b * 3 ^ k) := by
        intro k hk hpos
        exact hex ⟨k, hk, hpos⟩
      rw [bracketLoop_no_hit _ 3 9 (by norm_num) b hall]
      exact ⟨fun hlt => ⟨hall, hlt⟩, fun h => h.2⟩
  refine ⟨hiff, fun hall hlt => ?_⟩
  have hb2 : (bracketLoop (fit_func_root odeint N X (tnew - t).toNat B gamma P ypred)
      3 9 b).2 < 0 := hiff.mpr ⟨hall, hlt⟩
  simp only [fitLoop, hstore]
  rw [if_pos hb2]

/-- Witness for claim C5 (amended): a concrete fitting step in which every
one of the nine examined scales stays below the target, so the step
raises the bracketing error. -/
theorem claim_C5_amended_witness :
    fitLoop odeReadScale brentqNone 1 1 oneVec storeEmpty 0 oneMat zeroVec 1 [1] [0] =
      .error (.valueError ("Problem in bracketing!")) := by
  have hall : ∀ k, k < 9 →
      ¬0 < fit_func_root odeReadScale 1 zeroVec ((1 : ℤ) - 0).toNat oneMat 1 oneVec 0
        (1 * 3 ^ k) := by
    intro k hk
    rw [fit_root_readScale]
    have h38 : (3 : ℝ) ^ k ≤ 3 ^ 8 := by
      apply pow_le_pow_right₀ (by norm_num)
      omega
    norm_num
    nlinarith
  have hlt : fit_func_root odeReadScale 1 zeroVec ((1 : ℤ) - 0).toNat oneMat 1 oneVec 0
      (1 * 3 ^ 8) < 0 := by
    rw [fit_root_readScale]
    norm_num
  exact (claim_C5_amended odeReadScale brentqNone 1 1 oneVec storeEmpty 0 1 oneMat
    zeroVec 1 0 [] [] rfl).2 hall hlt

/-- Counterexample to claim C5 as stated: a fit_sir run whose first-step
func_root is b mapsto b - 19682.  The source examines only the nine scales
3^0 .. 3^8 (all below the root) and raises the bracketing error, although
the predicted fraction does exceed the target at the tenth attempt scale
3^9 -- under the claimed ten-attempt budget the bracket would have been
found. -/
theorem claim_C5_counterexample :
    fit_sir odeReadScale brentqNone 1 [0, 1] [zeroVec, zeroVec] 1 oneVec storeOne 1 =
        .error (.valueError ("Problem in bracketing!")) ∧
      0 < fit_func_root odeReadScale 1
          (sir_SI_to_X (fun i => 1 - zeroVec i) zeroVec 1) 1 oneMat 1 oneVec 0
          (1 * 3 ^ 9) := by
  have hall : ∀ (X : Vec) (yp : ℝ), yp = 0 → ∀ k, k < 9 →
      ¬0 < fit_func_root odeReadScale 1 X 1 oneMat 1 oneVec yp (1 * 3 ^ k) := by
    intro X yp hyp k hk
    rw [fit_root_readScale, hyp]
    have h38 : (3 : ℝ) ^ k ≤ 3 ^ 8 := by
      apply pow_le_pow_right₀ (by norm_num)
      omega
    norm_num
    nlinarith
  have hb2 : ∀ (X : Vec) (yp : ℝ), yp = 0 →
      (bracketLoop (fit_func_root odeReadScale 1 X 1 oneMat 1 oneVec yp) 3 9 1).2 < 0 := by
    intro X yp hyp
    rw [bracketLoop_no_hit _ 3 9 (by norm_num) 1 (hall X yp hyp)]
    rw [fit_root_readScale, hyp]
    norm_num
  constructor
  · have hy : ((∑ a ∈ range 1, zeroVec a * oneVec a) / ∑ a ∈ range 1, oneVec a) = (0 : ℝ) := by
      simp [zeroVec, oneVec]
    simp only [fit_sir, storeOne, List.map, List.tail, fitLoop]
    rw [if_pos]
    convert hb2 (sir_SI_to_X (fun i => 1 - zeroVec i) zeroVec 1) _ hy using 3
  · rw [fit_root_readScale]
    norm_num

/-! #### What the fitting errors carry (fit_sir, lines 444-459) -/

/-- Every error produced by the fitting loop is one of: the IndexError of
running out of observed rows, or one of the two fixed-text ValueErrors of
bracketing and root finding.  None of them carries the current date, the
step index or the bracket values. -/
theorem fitLoop_error_cases (odeint : OdeTotal) (brentq : Brentq) (N : ℕ) (gamma : ℝ)
    (P : Vec) (store : Store) :
    ∀ (ts : List ℤ) (t : ℤ) (B : Mat) (X : Vec) (b : ℝ) (ys : List ℝ) (e : PyErr),
      fitLoop odeint brentq N gamma P store t B X b ts ys = .error e →
        e = .indexError ∨ e = .valueError ("Problem in bracketing!") ∨
          e = .valueError ("root finding failed!") := by
  intro ts
  induction ts with
  | nil =>
      intro t B X b ys e h
      exact absurd h (by simp [fitLoop])
  | cons tnew trest ih =>
      intro t B X b ys e h
      match ys with
      | [] =>
          simp only [fitLoop] at h
          injection h with h
          exact Or.inl h.symm
      | ypred :: yrest =>
          simp only [fitLoop] at h
          split at h
          · injection h with h
            exact Or.inr (Or.inl h.symm)
          · split at h
            · injection h with h
              exact Or.inr (Or.inr h.symm)
            · split at h
              · next e1 heq =>
                  injection h with h
                  exact h ▸ ih _ _ _ _ _ _ heq
              · exact Except.noConfusion h

/-- Evaluation of a failing fit_sir run: target fraction one half but a
solver whose prediction is always zero, so every bracket attempt fails and
the fixed-text bracketing ValueError is raised, whatever the two dates and
the initial scale are. -/
theorem fitC9_eval (t0 t1 : ℤ) (b0 : ℝ) :
    fit_sir odeConstS1 brentqNone 1 [t0, t1] [zeroVec, halfVec] 1 oneVec storeOne b0 =
      .error (.valueError ("Problem in bracketing!")) := by
  have hy : ((∑ a ∈ range 1, halfVec a * oneVec a) / ∑ a ∈ range 1, oneVec a) =
      (1 / 2 : ℝ) := by
    simp [halfVec, oneVec]
  have hall : ∀ k, k < 9 → ¬0 < fit_func_root odeConstS1 1
      (sir_SI_to_X (fun i => 1 - zeroVec i) zeroVec 1) ((t1 - t0).toNat) oneMat 1 oneVec
      ((∑ a ∈ range 1, halfVec a * oneVec a) / ∑ a ∈ range 1, oneVec a) (b0 * 3 ^ k) := by
    intro k _
    rw [fit_root_constS1, hy]
    norm_num
  have hb2 : (bracketLoop (fit_func_root odeConstS1 1
      (sir_SI_to_X (fun i => 1 - zeroVec i) zeroVec 1) ((t1 - t0).toNat) oneMat 1 oneVec
      ((∑ a ∈ range 1, halfVec a * oneVec a) / ∑ a ∈ range 1, oneVec a)) 3 9 b0).2 < 0 := by
    rw [bracketLoop_no_hit _ 3 9 (by norm_num) b0 hall]
    rw [fit_root_constS1, hy]
    norm_num
  simp only [fit_sir, storeOne, List.map, List.tail, fitLoop]
  rw [if_pos hb2]

/-- Counterexample to claim C9 as stated: three aborting fit_sir runs --
two with entirely different dates and one with a different starting
bracket -- deliver literally the same error value, the bare fixed-text
ValueError, so the error delivered to the caller includes neither the
offending date (or step index) nor the numerical quantities such as the
bracket values. -/
theorem claim_C9_counterexample :
    fit_sir odeConstS1 brentqNone 1 [0, 1] [zeroVec, halfVec] 1 oneVec storeOne 1 =
        .error (.valueError ("Problem in bracketing!")) ∧
      fit_sir odeConstS1 brentqNone 1 [100, 101] [zeroVec, halfVec] 1 oneVec storeOne 1 =
        fit_sir odeConstS1 brentqNone 1 [0, 1] [zeroVec, halfVec] 1 oneVec storeOne 1 ∧
      fit_sir odeConstS1 brentqNone 1 [0, 1] [zeroVec, halfVec] 1 oneVec storeOne 7 =
        fit_sir odeConstS1 brentqNone 1 [0, 1] [zeroVec, halfVec] 1 oneVec storeOne 1 := by
  refine ⟨fitC9_eval 0 1 1, ?_, ?_⟩
  · rw [fitC9_eval 100 101 1, fitC9_eval 0 1 1]
  · rw [fitC9_eval 0 1 7, fitC9_eval 0 1 1]

/-- Claim C9 (amended): when fit_sir aborts because bracketing or root
finding failed, the error delivered to the caller is the bare ValueError
with the fixed message Problem in bracketing! or root finding failed!;
it contains neither the offending date or step index nor any numerical
quantity such as the bracket values.  (Only the initial store lookup can
attach a date, through the key of its KeyError.) -/
theorem claim_C9_amended (odeint : OdeTotal) (brentq : Brentq) (N : ℕ)
    (times : List ℤ) (Treal : List Vec) (gamma : ℝ) (P : Vec) (store : Store)
    (b0 : ℝ) (e : PyErr)
    (h : fit_sir odeint brentq N times Treal gamma P store b0 = .error e) :
    (∃ t, e = .keyError t) ∨ e = .indexError ∨
      e = .valueError ("Problem in bracketing!") ∨
      e = .valueError ("root finding failed!") := by
  match times with
  | [] =>
      simp only [fit_sir] at h
      injection h with h
      exact Or.inr (Or.inl h.symm)
  | t0 :: trest =>
      simp only [fit_sir] at h
      split at h
      · next heq =>
          injection h with h
          exact Or.inl ⟨t0, h.symm⟩
      · next B0 heq =>
          match Treal, h with
          | [], h =>
              injection h with h
              exact Or.inr (Or.inl h.symm)
          | T0 :: Trest, h =>
              simp only at h
              split at h
              · next e1 heq2 =>
                  injection h with h
                  have := fitLoop_error_cases odeint brentq N gamma P store trest t0 B0
                    (sir_SI_to_X (fun i => 1 - T0 i) T0 N) b0 _ e1 heq2
                  exact h ▸ Or.inr this
              · exact Except.noConfusion h

/-- Witness for claim C9 (amended) on a concrete aborting run. -/
theorem claim_C9_amended_witness :
    (∃ t, PyErr.valueError ("Problem in bracketing!") = .keyError t) ∨
      PyErr.valueError ("Problem in bracketing!") = .indexError ∨
      PyErr.valueError ("Problem in bracketing!") = .valueError ("Problem in bracketing!") ∨
      PyErr.valueError ("Problem in bracketing!") = .valueError ("root finding failed!") :=
  claim_C9_amended odeConstS1 brentqNone 1 [5, 6] [zeroVec, halfVec] 1 oneVec storeOne 1
    (.valueError ("Problem in bracketing!")) (fitC9_eval 5 6 1)

/-- Claim C10: both integrate_sir and fit_sir read the coupling matrix
keyed at the first time point unconditionally, before any integration
step: when the store has no entry for times[0] the call fails immediately
with the lookup error (KeyError carrying that key), for every solver,
root finder, state and scale sequence; the stale-matrix fallback never
applies to times[0]. -/
theorem claim_C10 (ode : OdeSolver) (odeint : OdeTotal) (brentq : Brentq) (N : ℕ)
    (Xi : Vec) (t0 : ℤ) (trest : List ℤ) (scales : List ℝ) (Treal : List Vec)
    (gamma : ℝ) (P : Vec) (store : Store) (b0 : ℝ)
    (hmiss : store t0 = none) :
    integrate_sir N ode Xi (t0 :: trest) scales gamma store = .error (.keyError t0) ∧
      fit_sir odeint brentq N (t0 :: trest) Treal gamma P store b0 =
        .error (.keyError t0) := by
  constructor
  · simp [integrate_sir, hmiss]
  · simp [fit_sir, hmiss]

/-- Witness for claim C10 on a store with no entries at all. -/
theorem claim_C10_witness :
    integrate_sir 1 odeConstTraj zeroVec [0] [] 1 storeEmpty = .error (.keyError 0) ∧
      fit_sir odeConstS1 brentqNone 1 [0] [] 1 oneVec storeEmpty 1 =
        .error (.keyError 0) :=
  claim_C10 odeConstTraj odeConstS1 brentqNone 1 zeroVec 0 [] [] [] 1 oneVec storeEmpty 1
    rfl

/-! #### The stopping iteration of the epidemic-size loop -/

/-- The fixed-point iteration formula: the next iterate is the update of
the previous one. -/
theorem epIter_succ (N : ℕ) (M : Mat) (eps : Vec) (gamma : ℝ) (k : ℕ) :
    epIter N M eps gamma (k + 1) = epidemicStep N M eps gamma (epIter N M eps gamma k) :=
  Function.iterate_succ_apply' (epidemicStep N M eps gamma) k (fun _ => 0)

/-- Unwinding of the loop of get_epidemic_size along the iterate sequence:
starting from the m-th iterate with fuel r, if the break test first
passes between iterates m+K and m+K+1 (or the fuel runs out there), the
loop stops with the iterate m+K. -/
theorem epidemicLoop_from (N : ℕ) (M : Mat) (eps : Vec) (gamma s : ℝ) :
    ∀ (K r m : ℕ), K + 1 ≤ r →
      (∀ j, m ≤ j → j < m + K →
        ¬stopCrit N s (epIter N M eps gamma j) (epIter N M eps gamma (j + 1))) →
      (stopCrit N s (epIter N M eps gamma (m + K)) (epIter N M eps gamma (m + K + 1)) ∨
        K + 1 = r) →
      epidemicLoop N M eps gamma s r (epIter N M eps gamma m) = epIter N M eps gamma (m + K) := by
  intro K
  induction K with
  | zero =>
      intro r m hr _ hstop
      match r, hr with
      | 1, _ => simp [epidemicLoop]
      | r' + 2, _ =>
          rcases hstop with hstop | hstop
          · have hstep := (epIter_succ N M eps gamma m).symm
            simp only [epidemicLoop]
            rw [if_pos]
            · simp
            · rw [hstep]
              simpa using hstop
          · omega
  | succ K ih =>
      intro r m hr hno hstop
      match r, hr with
      | r' + 2, hr2 =>
          have hnostop : ¬stopCrit N s (epIter N M eps gamma m)
              (epidemicStep N M eps gamma (epIter N M eps gamma m)) := by
            rw [← epIter_succ]
            exact hno m le_rfl (by omega)
          simp only [epidemicLoop]
          rw [if_neg hnostop, ← epIter_succ]
          have harith2 : m + (K + 1) = m + 1 + K := by omega
          rw [harith2]
          exact ih (r' + 1) (m + 1) (by omega)
            (fun j hj1 hj2 => hno j (by omega) (by omega))
            (by
              rcases hstop with hstop | hstop
              · left
                have harith : m + 1 + K = m + (K + 1) := by omega
                rw [harith]
                exact hstop
              · right
                omega)

/-- Claim C2 (amended): get_epidemic_size iterates
X_(k+1) = (1/gamma) M (1 - (1-eps) exp(-X_k)) from X_0 = 0, and stops at
the first K whose update passes the relative-tolerance test
norm(X_K - X_(K+1)) / (norm X_K + norm X_(K+1)) * 2 < rtol_stop (with the
NaN guard of the float quotient), or at K = itermax - 1 when the budget
runs out, the latter with only a printed warning: in both cases it
returns the mean over the N communities of 1 - (1-eps_i) exp(-X_K,i),
derived from the iterate at which the loop stopped -- the second-to-last
iterate computed, one step behind the last computed iterate X_(K+1). -/
theorem claim_C2_amended (N : ℕ) (M : Mat) (eps : Vec) (gamma : ℝ) (itermax : ℕ)
    (rtol_stop : ℝ) (K : ℕ)
    (h1 : K + 1 ≤ itermax)
    (h2 : ∀ j, j < K →
      ¬stopCrit N rtol_stop (epIter N M eps gamma j) (epIter N M eps gamma (j + 1)))
    (h3 : stopCrit N rtol_stop (epIter N M eps gamma K) (epIter N M eps gamma (K + 1)) ∨
      K + 1 = itermax) :
    get_epidemic_size N M eps gamma itermax rtol_stop =
        (∑ a ∈ range N, (1 - (1 - eps a) * Real.exp (-(epIter N M eps gamma K a)))) / N ∧
      epIter N M eps gamma (K + 1) =
        epidemicStep N M eps gamma (epIter N M eps gamma K) := by
  refine ⟨?_, epIter_succ N M eps gamma K⟩
  unfold get_epidemic_size
  have h0 : (fun _ => (0 : ℝ)) = epIter N M eps gamma 0 := rfl
  rw [h0, epidemicLoop_from N M eps gamma rtol_stop K itermax 0 h1
    (fun j _ hj => h2 j (by omega)) (by simpa using h3)]
  simp

/-- For one community the vector norm is the absolute value of the entry. -/
theorem vecNorm_one (V : Vec) : vecNorm 1 V = |V 0| := by
  simp [vecNorm, Real.sqrt_sq_eq_abs]

/-- The first iterate of the fixed-point map for the all-ones matrix,
one-half seed and gamma = 1 is constantly one half. -/
theorem epIter_one_half_first (a : ℕ) : epIter 1 oneMat halfVec 1 1 a = 1 / 2 := by
  simp [epIter, epidemicStep, oneMat, halfVec]

/-- Witness for claim C2 (amended): with itermax = 2, the all-ones matrix,
seed one half and gamma = 1, the tolerance never passes within the budget,
so the loop stops at K = itermax - 1 = 1 and the returned size is derived
from the iterate X_1. -/
theorem claim_C2_amended_witness :
    get_epidemic_size 1 oneMat halfVec 1 2 (1 / 10 ^ 8) =
        (∑ a ∈ range 1, (1 - (1 - halfVec a) *
          Real.exp (-(epIter 1 oneMat halfVec 1 1 a)))) / ((1 : ℕ) : ℝ) ∧
      epIter 1 oneMat halfVec 1 (1 + 1) =
        epidemicStep 1 oneMat halfVec 1 (epIter 1 oneMat halfVec 1 1) := by
  have h2 : ∀ j, j < 1 →
      ¬stopCrit 1 (1 / 10 ^ 8) (epIter 1 oneMat halfVec 1 j)
        (epIter 1 oneMat halfVec 1 (j + 1)) := by
    intro j hj
    interval_cases j
    rintro ⟨-, hlt⟩
    rw [vecNorm_one, vecNorm_one, vecNorm_one] at hlt
    have hz : epIter 1 oneMat halfVec 1 0 0 = 0 := rfl
    rw [hz, epIter_one_half_first 0] at hlt
    norm_num at hlt
  exact claim_C2_amended 1 oneMat halfVec 1 2 (1 / 10 ^ 8) 1 (by norm_num) h2 (Or.inr rfl)

/-- Counterexample to claim C2 as stated: with itermax = 1 the last iterate
computed is X_1 (constantly one half here), but get_epidemic_size returns
the value one half derived from the previous iterate X_0 = 0, and the
value the claim prescribes, the mean of 1 - (1-eps) exp(-X_1), differs
from it. -/
theorem claim_C2_counterexample :
    get_epidemic_size 1 oneMat halfVec 1 1 (1 / 10 ^ 8) = 1 / 2 ∧
      epIter 1 oneMat halfVec 1 1 0 = 1 / 2 ∧
      (∑ a ∈ range 1, (1 - (1 - halfVec a) *
          Real.exp (-(epIter 1 oneMat halfVec 1 1 a)))) / 1 ≠ 1 / 2 := by
  refine ⟨?_, epIter_one_half_first 0, ?_⟩
  · simp only [get_epidemic_size, epidemicLoop]
    norm_num [halfVec]
  · rw [Finset.sum_range_one, epIter_one_half_first 0]
    have hexp : Real.exp (-(1 / 2 : ℝ)) ≠ 1 := by
      intro h
      have h0 : (-(1 / 2 : ℝ)) = 0 := Real.exp_injective (by rw [h, Real.exp_zero])
      norm_num at h0
    intro h
    apply hexp
    have hhalf : (1 : ℝ) - halfVec 0 = 1 / 2 := by norm_num [halfVec]
    rw [hhalf] at h
    nlinarith [h]

/-! #### Day-dense output of integrate_sir -/

/-- In a strictly increasing chain the default last element is at least
the head. -/
theorem chain_le_getLastD : ∀ (l : List ℤ) (a : ℤ),
    List.Chain' (· < ·) (a :: l) → a ≤ l.getLastD a
  | [], a, _ => le_rfl
  | b :: l', a, h => by
      rw [List.getLastD_cons]
      have hab : a < b := (List.chain'_cons.mp h).1
      have := chain_le_getLastD l' b (List.chain'_cons.mp h).2
      omega

/-- A successful integrate loop produces exactly one sample per whole day
after the start: the dates are start+1, ..., last and the states match
them one for one. -/
theorem integrateLoop_ok (ode : OdeSolver) (gamma : ℝ) (store : Store) :
    ∀ (steps : List (ℤ × ℝ)) (t : ℤ) (B : Mat) (X : Vec) (ts : List ℤ) (xs : List Vec),
      integrateLoop ode gamma store t B X steps = .ok (ts, xs) →
      List.Chain' (· < ·) (t :: steps.map Prod.fst) →
      ts = (List.range (((steps.map Prod.fst).getLastD t - t).toNat)).map
          (fun k : ℕ => t + ((k : ℤ) + 1)) ∧
        xs.length = ts.length := by
  intro steps
  induction steps with
  | nil =>
      intro t B X ts xs hok _
      simp only [integrateLoop] at hok
      injection hok with hok
      injection hok with h1 h2
      subst h1
      subst h2
      simp
  | cons p rest ih =>
      intro t B X ts xs hok hchain
      obtain ⟨tnew, s⟩ := p
      simp only [integrateLoop] at hok
      split at hok
      · exact Except.noConfusion hok
      · next sols heqode =>
          split at hok
          · exact Except.noConfusion hok
          · next ts' xs' heqrec =>
              injection hok with hok
              injection hok with h1 h2
              have hchain' : List.Chain' (· < ·) (tnew :: rest.map Prod.fst) := by
                simp only [List.map_cons, List.chain'_cons] at hchain
                exact hchain.2
              have hlt : t < tnew := by
                simp only [List.map_cons, List.chain'_cons] at hchain
                exact hchain.1
              obtain ⟨hts', hlen'⟩ := ih tnew _ _ ts' xs' heqrec hchain'
              have hLtn : tnew ≤ (rest.map Prod.fst).getLastD tnew :=
                chain_le_getLastD _ _ hchain'
              have hdtcast : (((tnew - t).toNat : ℤ)) = tnew - t := by omega
              have hD : ((List.map Prod.fst ((tnew, s) :: rest)).getLastD t - t).toNat =
                  (tnew - t).toNat + ((rest.map Prod.fst).getLastD tnew - tnew).toNat := by
                simp only [List.map_cons, List.getLastD_cons]
                omega
              constructor
              · subst h1
                rw [hts', hD, List.range_add, List.map_append, List.map_map]
                congr 1
                apply List.map_congr_left
                intro k _
                simp only [Function.comp_apply]
                push_cast
                omega
              · subst h1
                subst h2
                simp only [hts', hlen']
                simp
                rw [hlen', hts']
                simp [List.getLastD_eq_getLast?, List.getLast?_map]

/-- Maps of ranges by a strictly increasing affine function are
strictly increasing chains. -/
theorem chain_lt_map_range (t0 : ℤ) :
    ∀ n : ℕ, List.Chain' (· < ·) ((List.range n).map (fun k : ℕ => t0 + (k : ℤ))) := by
  intro n
  rw [List.chain'_map]
  match n with
  | 0 => simp
  | n + 1 =>
      rw [List.chain'_range_succ]
      intro m _
      push_cast
      omega

/-- Claim C8: for strictly increasing dates, a successful run of
integrate_sir returns one sample per whole day from times[0] to times[-1]
inclusive: the returned dates are exactly times[0], times[0]+1, ...,
times[-1], hence (times[-1] - times[0]) + 1 samples in total, strictly
increasing and starting at times[0], and the S and I tables have one
length-N vector (type Fin N -> real) per returned date. -/
theorem claim_C8 (N : ℕ) (ode : OdeSolver) (Xi : Vec) (scales : List ℝ)
    (gamma : ℝ) (store : Store) (t0 : ℤ) (trest : List ℤ)
    (ts : List ℤ) (Ss Is : List (Fin N → ℝ))
    (hchain : List.Chain' (· < ·) (t0 :: trest))
    (hok : integrate_sir N ode Xi (t0 :: trest) scales gamma store = .ok (ts, Ss, Is)) :
    ts = (List.range ((trest.getLastD t0 - t0).toNat + 1)).map (fun k : ℕ => t0 + (k : ℤ)) ∧
      ts.length = (trest.getLastD t0 - t0).toNat + 1 ∧
      List.Chain' (· < ·) ts ∧
      ts.head? = some t0 ∧
      Ss.length = ts.length ∧
      Is.length = ts.length := by
  simp only [integrate_sir] at hok
  split at hok
  · exact Except.noConfusion hok
  · next B0 heqstore =>
      split at hok
      · exact Except.noConfusion hok
      · next hlen =>
          split at hok
          · exact Except.noConfusion hok
          · next ts' xs' heqloop =>
              injection hok with hok
              injection hok with h1 hok
              injection hok with h2 h3
              have hlens : scales.length = trest.length := by
                simp only [List.length_cons] at hlen
                omega
              have hfst : (trest.zip scales).map Prod.fst = trest :=
                List.map_fst_zip trest scales (by omega)
              have hchain2 : List.Chain' (· < ·) (t0 :: (trest.zip scales).map Prod.fst) := by
                rw [hfst]
                exact hchain
              obtain ⟨hts', hlen'⟩ :=
                integrateLoop_ok ode gamma store (trest.zip scales) t0 B0 Xi ts' xs'
                  heqloop hchain2
              rw [hfst] at hts'
              have hD : trest.getLastD t0 - t0 = (trest.getLastD t0 - t0).toNat := by
                have := chain_le_getLastD trest t0 hchain
                omega
              have htseq : ts = (List.range ((trest.getLastD t0 - t0).toNat + 1)).map
                  (fun k : ℕ => t0 + (k : ℤ)) := by
                subst h1
                rw [hts']
                rw [List.range_succ_eq_map, List.map_cons, List.map_map]
                refine List.cons_eq_cons.mpr ⟨by simp, ?_⟩
                apply List.map_congr_left
                intro k _
                simp only [Function.comp_apply, Nat.succ_eq_add_one]
                push_cast
                ring
              refine ⟨htseq, ?_, ?_, ?_, ?_, ?_⟩
              · rw [htseq]
                simp
              · rw [htseq]
                exact chain_lt_map_range t0 _
              · rw [← h1]
                rfl
              · subst h2
                subst h1
                simp [hlen', hts']
              · subst h3
                subst h1
                simp [hlen', hts']

/-- Evaluation of a successful integrate_sir run: two time points five
days apart, one scale, a store entry for the first day and a solver that
holds the state constant. -/
theorem integrateC8_eval :
    integrate_sir 1 odeConstTraj zeroVec [0, 5] [1] 1 storeOne =
      .ok (0 :: (List.range 5).map (fun k : ℕ => (0 : ℤ) + ((k : ℤ) + 1)),
           (zeroVec :: (List.range 5).map (fun _ => zeroVec)).map (toS 1),
           (zeroVec :: (List.range 5).map (fun _ => zeroVec)).map (toI 1)) := by
  rfl

/-- Witness for claim C8: the run of integrateC8_eval has exactly six
daily samples 0, 1, 2, 3, 4, 5, strictly increasing, starting at the
first time point, with matching S and I table lengths. -/
theorem claim_C8_witness :
    (0 :: (List.range 5).map (fun k : ℕ => (0 : ℤ) + ((k : ℤ) + 1)) =
        (List.range 6).map (fun k : ℕ => (0 : ℤ) + (k : ℤ))) ∧
      (0 :: (List.range 5).map (fun k : ℕ => (0 : ℤ) + ((k : ℤ) + 1))).length = 6 ∧
      List.Chain' (· < ·) (0 :: (List.range 5).map (fun k : ℕ => (0 : ℤ) + ((k : ℤ) + 1))) ∧
      (0 :: (List.range 5).map (fun k : ℕ => (0 : ℤ) + ((k : ℤ) + 1))).head? = some 0 ∧
      ((zeroVec :: (List.range 5).map (fun _ => zeroVec)).map (toS 1)).length =
        (0 :: (List.range 5).map (fun k : ℕ => (0 : ℤ) + ((k : ℤ) + 1))).length ∧
      ((zeroVec :: (List.range 5).map (fun _ => zeroVec)).map (toI 1)).length =
        (0 :: (List.range 5).map (fun k : ℕ => (0 : ℤ) + ((k : ℤ) + 1))).length :=
  claim_C8 1 odeConstTraj zeroVec [1] 1 storeOne 0 [5] _ _ _
    (by simp) integrateC8_eval

/-! #### Rational bounds on the exponentials of the C7 analysis -/

/-- Lower Taylor bound for exp. -/
theorem exp_ge_sum_sub (q : ℝ) (hq : |q| ≤ 1) (n : ℕ) (hn : 0 < n) :
    (∑ m ∈ range n, q ^ m / m.factorial) - |q| ^ n * (n.succ / (n.factorial * n)) ≤
      Real.exp q := by
  have h := Real.exp_bound hq hn
  have h2 := (abs_sub_le_iff.mp h).2
  linarith

/-- Upper Taylor bound for exp. -/
theorem exp_le_sum_add (q : ℝ) (hq : |q| ≤ 1) (n : ℕ) (hn : 0 < n) :
    Real.exp q ≤
      (∑ m ∈ range n, q ^ m / m.factorial) + |q| ^ n * (n.succ / (n.factorial * n)) := by
  have h := Real.exp_bound hq hn
  have h2 := (abs_sub_le_iff.mp h).1
  linarith

/-- exp(-1) is between 0.3678794411 and 0.3678794412. -/
theorem exp_neg_one_bounds :
    (0.3678794411 : ℝ) < Real.exp (-1) ∧ Real.exp (-1) < 0.3678794412 := by
  rw [Real.exp_neg]
  have hinv : (Real.exp 1)⁻¹ * Real.exp 1 = 1 := inv_mul_cancel₀ (ne_of_gt (Real.exp_pos 1))
  constructor
  · nlinarith [Real.exp_one_lt_d9, Real.exp_pos 1, hinv]
  · nlinarith [Real.exp_one_gt_d9, Real.exp_pos 1, hinv]

/-- exp 2 is between 7.3890560 and 7.3890561. -/
theorem exp_two_bounds : (7.3890560 : ℝ) < Real.exp 2 ∧ Real.exp 2 < 7.3890561 := by
  have h2 : (2 : ℝ) = 1 + 1 := by norm_num
  rw [h2, Real.exp_add]
  constructor
  · nlinarith [Real.exp_one_gt_d9, Real.exp_pos 1]
  · nlinarith [Real.exp_one_lt_d9, Real.exp_pos 1]

/-- Lower series bound at 0.3678794411 (a lower bound of exp(-1)). -/
theorem exp_q1_lo : (1.4446674 : ℝ) < Real.exp 0.3678794411 := by
  have habs : |(0.3678794411 : ℝ)| = 0.3678794411 := by
    rw [abs_of_nonneg]
    norm_num
  have h := exp_ge_sum_sub 0.3678794411 (by rw [habs]; norm_num) 7 (by norm_num)
  rw [habs] at h
  refine lt_of_lt_of_le ?_ h
  norm_num [Finset.sum_range_succ, Nat.factorial]

/-- Upper series bound at 0.3678794412 (an upper bound of exp(-1)). -/
theorem exp_q2_hi : Real.exp 0.3678794412 < 1.4446681 := by
  have habs : |(0.3678794412 : ℝ)| = 0.3678794412 := by
    rw [abs_of_nonneg]
    norm_num
  have h := exp_le_sum_add 0.3678794412 (by rw [habs]; norm_num) 7 (by norm_num)
  rw [habs] at h
  refine lt_of_le_of_lt h ?_
  norm_num [Finset.sum_range_succ, Nat.factorial]

/-- exp(exp(-1)) is between 1.4446674 and 1.4446681. -/
theorem expE_bounds :
    (1.4446674 : ℝ) < Real.exp (Real.exp (-1)) ∧
      Real.exp (Real.exp (-1)) < 1.4446681 := by
  obtain ⟨h1, h2⟩ := exp_neg_one_bounds
  constructor
  · exact lt_of_lt_of_le exp_q1_lo (Real.exp_le_exp.mpr (le_of_lt h1))
  · exact lt_of_le_of_lt (Real.exp_le_exp.mpr (le_of_lt h2)) exp_q2_hi

/-- exp(-(2 - exp(-1))) is between 0.1955143 and 0.1955148. -/
theorem Ev2_bounds :
    (0.1955143 : ℝ) < Real.exp (-(2 - Real.exp (-1))) ∧
      Real.exp (-(2 - Real.exp (-1))) < 0.1955148 := by
  have hform : Real.exp (-(2 - Real.exp (-1))) =
      Real.exp (Real.exp (-1)) / Real.exp 2 := by
    rw [← Real.exp_sub]
    congr 1
    ring
  obtain ⟨hA1, hA2⟩ := expE_bounds
  obtain ⟨hB1, hB2⟩ := exp_two_bounds
  have hBpos : (0 : ℝ) < Real.exp 2 := Real.exp_pos 2
  rw [hform]
  constructor
  · rw [lt_div_iff hBpos]
    nlinarith
  · rw [div_lt_iff hBpos]
    nlinarith

/-- exp(1/20) is between 1.051271090 and 1.051271097. -/
theorem exp_one_twentieth_bounds :
    (1.051271090 : ℝ) < Real.exp (1 / 20) ∧ Real.exp (1 / 20) < 1.051271097 := by
  have habs : |(1 / 20 : ℝ)| = 1 / 20 := by
    rw [abs_of_nonneg]
    norm_num
  have hlo := exp_ge_sum_sub (1 / 20) (by rw [habs]; norm_num) 5 (by norm_num)
  have hhi := exp_le_sum_add (1 / 20) (by rw [habs]; norm_num) 5 (by norm_num)
  rw [habs] at hlo hhi
  constructor
  · refine lt_of_lt_of_le ?_ hlo
    norm_num [Finset.sum_range_succ, Nat.factorial]
  · refine lt_of_le_of_lt hhi ?_
    norm_num [Finset.sum_range_succ, Nat.factorial]

/-- exp(-(21/20)) is between 0.3499377 and 0.3499378. -/
theorem exp_neg_2120_bounds :
    (0.3499377 : ℝ) < Real.exp (-(21 / 20)) ∧ Real.exp (-(21 / 20)) < 0.3499378 := by
  have hsplit : Real.exp (21 / 20 : ℝ) = Real.exp 1 * Real.exp (1 / 20) := by
    rw [← Real.exp_add]
    norm_num
  obtain ⟨h05lo, h05hi⟩ := exp_one_twentieth_bounds
  have h21lo : (2.85765110 : ℝ) < Real.exp (21 / 20) := by
    rw [hsplit]
    nlinarith [Real.exp_one_gt_d9, Real.exp_pos 1]
  have h21hi : Real.exp (21 / 20) < 2.85765112 := by
    rw [hsplit]
    nlinarith [Real.exp_one_lt_d9, Real.exp_pos 1, Real.exp_pos (1 / 20 : ℝ)]
  rw [Real.exp_neg]
  have hinv : (Real.exp (21 / 20))⁻¹ * Real.exp (21 / 20) = 1 :=
    inv_mul_cancel₀ (ne_of_gt (Real.exp_pos _))
  constructor
  · nlinarith [Real.exp_pos (21 / 20 : ℝ), hinv]
  · nlinarith [Real.exp_pos (21 / 20 : ℝ), hinv]

/-- Lower series bound at 0.267434585 = 2 - 1.732565415. -/
theorem exp_a1_lo : (1.306606 : ℝ) < Real.exp 0.267434585 := by
  have habs : |(0.267434585 : ℝ)| = 0.267434585 := by
    rw [abs_of_nonneg]
    norm_num
  have h := exp_ge_sum_sub 0.267434585 (by rw [habs]; norm_num) 7 (by norm_num)
  rw [habs] at h
  refine lt_of_lt_of_le ?_ h
  norm_num [Finset.sum_range_succ, Nat.factorial]

/-- Upper series bound at 0.26743469 = 2 - 1.73256531. -/
theorem exp_a2_hi : Real.exp 0.26743469 < 1.3066084 := by
  have habs : |(0.26743469 : ℝ)| = 0.26743469 := by
    rw [abs_of_nonneg]
    norm_num
  have h := exp_le_sum_add 0.26743469 (by rw [habs]; norm_num) 7 (by norm_num)
  rw [habs] at h
  refine lt_of_le_of_lt h ?_
  norm_num [Finset.sum_range_succ, Nat.factorial]

/-- exp of minus the second x2 iterate w2 = 21/10 - (21/20) exp(-(21/20))
is between 0.176825 and 0.176835. -/
theorem Ew2_bounds :
    (0.176825 : ℝ) < Real.exp (-(21 / 10 - 21 / 20 * Real.exp (-(21 / 20)))) ∧
      Real.exp (-(21 / 10 - 21 / 20 * Real.exp (-(21 / 20)))) < 0.176835 := by
  obtain ⟨hE1, hE2⟩ := exp_neg_2120_bounds
  obtain ⟨hB1, hB2⟩ := exp_two_bounds
  have hBpos : (0 : ℝ) < Real.exp 2 := Real.exp_pos 2
  have hw2hi : 21 / 10 - 21 / 20 * Real.exp (-(21 / 20)) < 1.732565415 := by nlinarith
  have hw2lo : (1.73256531 : ℝ) < 21 / 10 - 21 / 20 * Real.exp (-(21 / 20)) := by nlinarith
  constructor
  · have hmono : Real.exp (-(1.732565415 : ℝ)) <
        Real.exp (-(21 / 10 - 21 / 20 * Real.exp (-(21 / 20)))) :=
      Real.exp_lt_exp.mpr (by linarith)
    have hform : Real.exp (-(1.732565415 : ℝ)) = Real.exp 0.267434585 / Real.exp 2 := by
      rw [← Real.exp_sub]
      norm_num
    have hlow : (0.176825 : ℝ) < Real.exp (-(1.732565415 : ℝ)) := by
      rw [hform, lt_div_iff hBpos]
      nlinarith [exp_a1_lo]
    linarith
  · have hmono : Real.exp (-(21 / 10 - 21 / 20 * Real.exp (-(21 / 20)))) <
        Real.exp (-(1.73256531 : ℝ)) :=
      Real.exp_lt_exp.mpr (by linarith)
    have hform : Real.exp (-(1.73256531 : ℝ)) = Real.exp 0.26743469 / Real.exp 2 := by
      rw [← Real.exp_sub]
      norm_num
    have hhigh : Real.exp (-(1.73256531 : ℝ)) < 0.176835 := by
      rw [hform, div_lt_iff hBpos]
      nlinarith [exp_a2_hi, Real.exp_pos (0.26743469 : ℝ)]
    linarith

/-! #### The two runs of get_epidemic_size refuting monotonicity in the scale -/

/-- The fixed-point update for one community, the all-ones matrix scaled
by x, seed one half and gamma 1. -/
theorem epStep_scalar (x : ℝ) (X : Vec) (a : ℕ) :
    epidemicStep 1 (fun i j => x * oneMat i j) halfVec 1 X a =
      x * (1 - 1 / 2 * Real.exp (-(X 0))) := by
  simp only [epidemicStep, oneMat, halfVec, Finset.sum_range_one]
  ring

/-- Advancing a constant iterate of the scalar run by one step. -/
theorem epIter_scalar_succ (x v : ℝ) (k : ℕ)
    (h : epIter 1 (fun i j => x * oneMat i j) halfVec 1 k = fun _ => v) :
    epIter 1 (fun i j => x * oneMat i j) halfVec 1 (k + 1) =
      fun _ => x * (1 - 1 / 2 * Real.exp (-v)) := by
  rw [epIter_succ, h]
  funext a
  rw [epStep_scalar]

/-- Iterates of the x = 2 run. -/
theorem iter_x1_1 :
    epIter 1 (fun i j => (2 : ℝ) * oneMat i j) halfVec 1 1 = fun _ => 1 := by
  rw [epIter_scalar_succ 2 0 0 rfl]
  funext a
  norm_num

theorem iter_x1_2 :
    epIter 1 (fun i j => (2 : ℝ) * oneMat i j) halfVec 1 2 = fun _ => 2 - Real.exp (-1) := by
  rw [epIter_scalar_succ 2 1 1 iter_x1_1]
  funext a
  ring

theorem iter_x1_3 :
    epIter 1 (fun i j => (2 : ℝ) * oneMat i j) halfVec 1 3 =
      fun _ => 2 - Real.exp (-(2 - Real.exp (-1))) := by
  rw [epIter_scalar_succ 2 (2 - Real.exp (-1)) 2 iter_x1_2]
  funext a
  ring

theorem iter_x1_4 :
    epIter 1 (fun i j => (2 : ℝ) * oneMat i j) halfVec 1 4 =
      fun _ => 2 - Real.exp (-(2 - Real.exp (-(2 - Real.exp (-1))))) := by
  rw [epIter_scalar_succ 2 (2 - Real.exp (-(2 - Real.exp (-1)))) 3 iter_x1_3]
  funext a
  ring

/-- Iterates of the x = 21/10 run. -/
theorem iter_x2_1 :
    epIter 1 (fun i j => (21 / 10 : ℝ) * oneMat i j) halfVec 1 1 = fun _ => 21 / 20 := by
  rw [epIter_scalar_succ (21 / 10) 0 0 rfl]
  funext a
  norm_num

theorem iter_x2_2 :
    epIter 1 (fun i j => (21 / 10 : ℝ) * oneMat i j) halfVec 1 2 =
      fun _ => 21 / 10 - 21 / 20 * Real.exp (-(21 / 20)) := by
  rw [epIter_scalar_succ (21 / 10) (21 / 20) 1 iter_x2_1]
  funext a
  ring

theorem iter_x2_3 :
    epIter 1 (fun i j => (21 / 10 : ℝ) * oneMat i j) halfVec 1 3 =
      fun _ => 21 / 10 - 21 / 20 *
        Real.exp (-(21 / 10 - 21 / 20 * Real.exp (-(21 / 20)))) := by
  rw [epIter_scalar_succ (21 / 10) (21 / 10 - 21 / 20 * Real.exp (-(21 / 20))) 2 iter_x2_2]
  funext a
  ring

/-- The break test on two constant one-community vectors. -/
theorem stopCrit_const (s u v : ℝ) :
    stopCrit 1 s (fun _ => u) (fun _ => v) ↔
      0 < |u| + |v| ∧ |u - v| / (|u| + |v|) * 2 < s := by
  unfold stopCrit
  rw [vecNorm_one, vecNorm_one, vecNorm_one]

/-- Mean-value style bound: exp(-a) - exp(-b) <= exp(-a) (b - a). -/
theorem exp_neg_diff_le (a b : ℝ) (hab : a ≤ b) :
    Real.exp (-a) - Real.exp (-b) ≤ Real.exp (-a) * (b - a) := by
  have h := Real.add_one_le_exp (-(b - a))
  have hsplit : Real.exp (-b) = Real.exp (-a) * Real.exp (-(b - a)) := by
    rw [← Real.exp_add]
    ring_nf
  nlinarith [Real.exp_pos (-a)]

/-- The x = 2 run of the loop with tolerance 1/10 stops at the third
iterate: the first three tests fail and the fourth passes. -/
theorem loop_x1 :
    epidemicLoop 1 (fun i j => (2 : ℝ) * oneMat i j) halfVec 1 (1 / 10) 1000 (fun _ => 0) =
      fun _ => 2 - Real.exp (-(2 - Real.exp (-1))) := by
  obtain ⟨hE1lo, hE1hi⟩ := exp_neg_one_bounds
  obtain ⟨hV2lo, hV2hi⟩ := Ev2_bounds
  have hWV : Real.exp (-(2 - Real.exp (-(2 - Real.exp (-1))))) ≤
      Real.exp (-(2 - Real.exp (-1))) :=
    Real.exp_le_exp.mpr (by linarith)
  have hWpos := Real.exp_pos (-(2 - Real.exp (-(2 - Real.exp (-1)))))
  have hno : ∀ j, 0 ≤ j → j < 0 + 3 →
      ¬stopCrit 1 (1 / 10) (epIter 1 (fun i j => (2 : ℝ) * oneMat i j) halfVec 1 j)
        (epIter 1 (fun i j => (2 : ℝ) * oneMat i j) halfVec 1 (j + 1)) := by
    intro j _ hj
    interval_cases j
    · rw [show (0 + 1) = 1 from rfl, iter_x1_1]
      rw [show epIter 1 (fun i j => (2 : ℝ) * oneMat i j) halfVec 1 0 =
        fun _ => (0 : ℝ) from rfl]
      rw [stopCrit_const]
      rintro ⟨-, hlt⟩
      norm_num at hlt
    · rw [show (1 + 1) = 2 from rfl, iter_x1_1, iter_x1_2, stopCrit_const]
      rintro ⟨-, hlt⟩
      have ha1 : |(1 : ℝ)| = 1 := abs_one
      have ha2 : |(2 : ℝ) - Real.exp (-1)| = 2 - Real.exp (-1) :=
        abs_of_pos (by linarith)
      have ha3 : |(1 : ℝ) - (2 - Real.exp (-1))| = (2 - Real.exp (-1)) - 1 := by
        rw [abs_of_nonpos (by linarith)]
        ring
      rw [ha1, ha2, ha3] at hlt
      have hden : (0 : ℝ) < 1 + (2 - Real.exp (-1)) := by linarith
      rw [div_mul_eq_mul_div, div_lt_iff hden] at hlt
      linarith
    · rw [show (2 + 1) = 3 from rfl, iter_x1_2, iter_x1_3, stopCrit_const]
      rintro ⟨-, hlt⟩
      have ha2 : |(2 : ℝ) - Real.exp (-1)| = 2 - Real.exp (-1) :=
        abs_of_pos (by linarith)
      have ha4 : |(2 : ℝ) - Real.exp (-(2 - Real.exp (-1)))| =
          2 - Real.exp (-(2 - Real.exp (-1))) := abs_of_pos (by linarith)
      have ha5 : |(2 - Real.exp (-1)) - (2 - Real.exp (-(2 - Real.exp (-1))))| =
          Real.exp (-1) - Real.exp (-(2 - Real.exp (-1))) := by
        rw [abs_of_nonpos (by linarith)]
        ring
      rw [ha2, ha4, ha5] at hlt
      have hden : (0 : ℝ) < (2 - Real.exp (-1)) + (2 - Real.exp (-(2 - Real.exp (-1)))) := by
        linarith
      rw [div_mul_eq_mul_div, div_lt_iff hden] at hlt
      linarith
  have hstop : stopCrit 1 (1 / 10)
      (epIter 1 (fun i j => (2 : ℝ) * oneMat i j) halfVec 1 (0 + 3))
      (epIter 1 (fun i j => (2 : ℝ) * oneMat i j) halfVec 1 (0 + 3 + 1)) := by
    rw [show (0 + 3) = 3 from rfl, show (0 + 3 + 1) = 4 from rfl, iter_x1_3, iter_x1_4,
      stopCrit_const]
    have hdiff : Real.exp (-(2 - Real.exp (-1))) -
        Real.exp (-(2 - Real.exp (-(2 - Real.exp (-1))))) ≤
        Real.exp (-(2 - Real.exp (-1))) *
          ((2 - Real.exp (-(2 - Real.exp (-1)))) - (2 - Real.exp (-1))) :=
      exp_neg_diff_le (2 - Real.exp (-1)) (2 - Real.exp (-(2 - Real.exp (-1))))
        (by linarith)
    have hprodub : Real.exp (-(2 - Real.exp (-1))) *
        ((2 - Real.exp (-(2 - Real.exp (-1)))) - (2 - Real.exp (-1))) ≤
        0.1955148 * 0.1723652 := by
      apply mul_le_mul (le_of_lt hV2hi) (by linarith) (by linarith) (by norm_num)
    have ha4 : |(2 : ℝ) - Real.exp (-(2 - Real.exp (-1)))| =
        2 - Real.exp (-(2 - Real.exp (-1))) := abs_of_pos (by linarith)
    have ha6 : |(2 : ℝ) - Real.exp (-(2 - Real.exp (-(2 - Real.exp (-1)))))| =
        2 - Real.exp (-(2 - Real.exp (-(2 - Real.exp (-1))))) :=
      abs_of_pos (by linarith)
    have ha7 : |(2 - Real.exp (-(2 - Real.exp (-1)))) -
        (2 - Real.exp (-(2 - Real.exp (-(2 - Real.exp (-1))))))| =
        Real.exp (-(2 - Real.exp (-1))) -
          Real.exp (-(2 - Real.exp (-(2 - Real.exp (-1))))) := by
      rw [abs_of_nonpos (by linarith)]
      ring
    rw [ha4, ha6, ha7]
    have hden : (0 : ℝ) < (2 - Real.exp (-(2 - Real.exp (-1)))) +
        (2 - Real.exp (-(2 - Real.exp (-(2 - Real.exp (-1)))))) := by linarith
    refine ⟨hden, ?_⟩
    rw [div_mul_eq_mul_div, div_lt_iff hden]
    linarith
  have h0 : (fun _ => (0 : ℝ)) = epIter 1 (fun i j => (2 : ℝ) * oneMat i j) halfVec 1 0 := rfl
  rw [h0, epidemicLoop_from 1 (fun i j => (2 : ℝ) * oneMat i j) halfVec 1 (1 / 10) 3 1000 0
    (by norm_num) hno (Or.inl hstop)]
  rw [show (0 + 3) = 3 from rfl, iter_x1_3]

/-- The x = 21/10 run of the loop with tolerance 1/10 stops already at the
second iterate: the first two tests fail and the third passes. -/
theorem loop_x2 :
    epidemicLoop 1 (fun i j => (21 / 10 : ℝ) * oneMat i j) halfVec 1 (1 / 10) 1000
        (fun _ => 0) =
      fun _ => 21 / 10 - 21 / 20 * Real.exp (-(21 / 20)) := by
  obtain ⟨hE1lo, hE1hi⟩ := exp_neg_2120_bounds
  obtain ⟨hWlo, hWhi⟩ := Ew2_bounds
  have hno : ∀ j, 0 ≤ j → j < 0 + 2 →
      ¬stopCrit 1 (1 / 10) (epIter 1 (fun i j => (21 / 10 : ℝ) * oneMat i j) halfVec 1 j)
        (epIter 1 (fun i j => (21 / 10 : ℝ) * oneMat i j) halfVec 1 (j + 1)) := by
    intro j _ hj
    interval_cases j
    · rw [show (0 + 1) = 1 from rfl, iter_x2_1]
      rw [show epIter 1 (fun i j => (21 / 10 : ℝ) * oneMat i j) halfVec 1 0 =
        fun _ => (0 : ℝ) from rfl]
      rw [stopCrit_const]
      rintro ⟨-, hlt⟩
      norm_num at hlt
    · rw [show (1 + 1) = 2 from rfl, iter_x2_1, iter_x2_2, stopCrit_const]
      rintro ⟨-, hlt⟩
      have ha1 : |(21 / 20 : ℝ)| = 21 / 20 := abs_of_pos (by norm_num)
      have ha2 : |(21 / 10 : ℝ) - 21 / 20 * Real.exp (-(21 / 20))| =
          21 / 10 - 21 / 20 * Real.exp (-(21 / 20)) := abs_of_pos (by linarith)
      have ha3 : |(21 / 20 : ℝ) - (21 / 10 - 21 / 20 * Real.exp (-(21 / 20)))| =
          (21 / 10 - 21 / 20 * Real.exp (-(21 / 20))) - 21 / 20 := by
        rw [abs_of_nonpos (by linarith)]
        ring
      rw [ha1, ha2, ha3] at hlt
      have hden : (0 : ℝ) < 21 / 20 + (21 / 10 - 21 / 20 * Real.exp (-(21 / 20))) := by
        linarith
      rw [div_mul_eq_mul_div, div_lt_iff hden] at hlt
      linarith
  have hstop : stopCrit 1 (1 / 10)
      (epIter 1 (fun i j => (21 / 10 : ℝ) * oneMat i j) halfVec 1 (0 + 2))
      (epIter 1 (fun i j => (21 / 10 : ℝ) * oneMat i j) halfVec 1 (0 + 2 + 1)) := by
    rw [show (0 + 2) = 2 from rfl, show (0 + 2 + 1) = 3 from rfl, iter_x2_2, iter_x2_3,
      stopCrit_const]
    have ha2 : |(21 / 10 : ℝ) - 21 / 20 * Real.exp (-(21 / 20))| =
        21 / 10 - 21 / 20 * Real.exp (-(21 / 20)) := abs_of_pos (by linarith)
    have ha4 : |(21 / 10 : ℝ) - 21 / 20 *
        Real.exp (-(21 / 10 - 21 / 20 * Real.exp (-(21 / 20))))| =
        21 / 10 - 21 / 20 *
          Real.exp (-(21 / 10 - 21 / 20 * Real.exp (-(21 / 20)))) :=
      abs_of_pos (by linarith)
    have ha5 : |(21 / 10 - 21 / 20 * Real.exp (-(21 / 20))) -
        (21 / 10 - 21 / 20 * Real.exp (-(21 / 10 - 21 / 20 * Real.exp (-(21 / 20)))))| =
        21 / 20 * Real.exp (-(21 / 20)) -
          21 / 20 * Real.exp (-(21 / 10 - 21 / 20 * Real.exp (-(21 / 20)))) := by
      rw [abs_of_nonpos (by linarith)]
      ring
    rw [ha2, ha4, ha5]
    have hden : (0 : ℝ) < (21 / 10 - 21 / 20 * Real.exp (-(21 / 20))) +
        (21 / 10 - 21 / 20 *
          Real.exp (-(21 / 10 - 21 / 20 * Real.exp (-(21 / 20))))) := by linarith
    refine ⟨hden, ?_⟩
    rw [div_mul_eq_mul_div, div_lt_iff hden]
    linarith
  have h0 : (fun _ => (0 : ℝ)) =
      epIter 1 (fun i j => (21 / 10 : ℝ) * oneMat i j) halfVec 1 0 := rfl
  rw [h0, epidemicLoop_from 1 (fun i j => (21 / 10 : ℝ) * oneMat i j) halfVec 1 (1 / 10) 2
    1000 0 (by norm_num) hno (Or.inl hstop)]
  rw [show (0 + 2) = 2 from rfl, iter_x2_2]

/-- Counterexample to claim C7 as stated: the all-ones 1 x 1 matrix,
nonnegative, seed one half in [0, 1], gamma = 1 > 0, and the two positive
scales 2 < 21/10 with itermax = 1000 and rtol_stop = 1/10: the tolerance
test of get_epidemic_size passes one iteration earlier for the larger
scale, so the returned epidemic size at scale 21/10 is strictly smaller
than at scale 2 -- the map is not non-decreasing in the scale. -/
theorem claim_C7_counterexample :
    (0 : ℝ) < 2 ∧ (2 : ℝ) < 21 / 10 ∧
      (∀ a b, (0 : ℝ) ≤ oneMat a b) ∧ (∀ b, (0 : ℝ) ≤ halfVec b ∧ halfVec b ≤ 1) ∧
      (0 : ℝ) < 1 ∧
      get_epidemic_size 1 (fun i j => (21 / 10 : ℝ) * oneMat i j) halfVec 1 1000 (1 / 10) <
        get_epidemic_size 1 (fun i j => (2 : ℝ) * oneMat i j) halfVec 1 1000 (1 / 10) := by
  refine ⟨by norm_num, by norm_num, fun a b => by norm_num [oneMat],
    fun b => by norm_num [halfVec], by norm_num, ?_⟩
  have hkey : Real.exp (-(2 - Real.exp (-(2 - Real.exp (-1))))) <
      Real.exp (-(21 / 10 - 21 / 20 * Real.exp (-(21 / 20)))) := by
    apply Real.exp_lt_exp.mpr
    obtain ⟨hV2lo, hV2hi⟩ := Ev2_bounds
    obtain ⟨h105lo, h105hi⟩ := exp_neg_2120_bounds
    linarith
  unfold get_epidemic_size
  rw [loop_x1, loop_x2]
  simp only [Finset.sum_range_one, halfVec, Nat.cast_one, div_one]
  linarith

/-- The update integrand 1 - (1-e) exp(-u) lies in [0, 1] for e in [0, 1]
and u >= 0. -/
theorem hfun_nonneg (e u : ℝ) (he0 : 0 ≤ e) (he1 : e ≤ 1) (hu : 0 ≤ u) :
    0 ≤ 1 - (1 - e) * Real.exp (-u) := by
  have h1 : Real.exp (-u) ≤ 1 := by
    rw [show (1 : ℝ) = Real.exp 0 from (Real.exp_zero).symm]
    exact Real.exp_le_exp.mpr (by linarith)
  have h2 : (1 - e) * Real.exp (-u) ≤ 1 :=
    mul_le_one (by linarith) (le_of_lt (Real.exp_pos _)) h1
  linarith

/-- The update integrand is monotone in u for e <= 1. -/
theorem hfun_mono (e u v : ℝ) (he1 : e ≤ 1) (huv : u ≤ v) :
    1 - (1 - e) * Real.exp (-u) ≤ 1 - (1 - e) * Real.exp (-v) := by
  have h := mul_le_mul_of_nonneg_left
    (Real.exp_le_exp.mpr (neg_le_neg huv)) (by linarith : (0 : ℝ) ≤ 1 - e)
  linarith

/-- Claim C7 (amended): for every fixed iteration count k, the k-th
fixed-point iterate of get_epidemic_size under the scaled matrix x M, and
the derived mean size, are non-decreasing in the scale x > 0 (for
nonnegative M, seed in [0, 1] and gamma > 0).  The early-stopping output
of get_epidemic_size itself is not monotone in x (see the counterexample):
monotonicity holds at every fixed iteration count but the tolerance test
can stop the two runs at different counts. -/
theorem claim_C7_amended (N : ℕ) (M : Mat) (eps : Vec) (gamma : ℝ) (k : ℕ) (x1 x2 : ℝ)
    (hM : ∀ a b, 0 ≤ M a b) (heps : ∀ b, 0 ≤ eps b ∧ eps b ≤ 1) (hg : 0 < gamma)
    (hx1 : 0 < x1) (hx12 : x1 ≤ x2) :
    (∀ a, epIter N (fun i j => x1 * M i j) eps gamma k a ≤
        epIter N (fun i j => x2 * M i j) eps gamma k a) ∧
      (∑ a ∈ range N, (1 - (1 - eps a) *
          Real.exp (-(epIter N (fun i j => x1 * M i j) eps gamma k a)))) / N ≤
        (∑ a ∈ range N, (1 - (1 - eps a) *
          Real.exp (-(epIter N (fun i j => x2 * M i j) eps gamma k a)))) / N := by
  have key : ∀ m, (∀ a, 0 ≤ epIter N (fun i j => x1 * M i j) eps gamma m a) ∧
      (∀ a, 0 ≤ epIter N (fun i j => x2 * M i j) eps gamma m a) ∧
      (∀ a, epIter N (fun i j => x1 * M i j) eps gamma m a ≤
        epIter N (fun i j => x2 * M i j) eps gamma m a) := by
    intro m
    induction m with
    | zero => exact ⟨fun a => le_refl 0, fun a => le_refl 0, fun a => le_refl 0⟩
    | succ m ih =>
        obtain ⟨hpos1, hpos2, hmono⟩ := ih
        have hstep : ∀ (x : ℝ), 0 < x → (∀ a, 0 ≤ epIter N (fun i j => x * M i j)
            eps gamma m a) →
            ∀ a, 0 ≤ epIter N (fun i j => x * M i j) eps gamma (m + 1) a := by
          intro x hx hp a
          rw [epIter_succ]
          unfold epidemicStep
          apply mul_nonneg (by positivity)
          apply Finset.sum_nonneg
          intro b _
          exact mul_nonneg (mul_nonneg (le_of_lt hx) (hM a b))
            (hfun_nonneg (eps b) _ (heps b).1 (heps b).2 (hp b))
        refine ⟨hstep x1 hx1 hpos1, hstep x2 (lt_of_lt_of_le hx1 hx12) hpos2, ?_⟩
        intro a
        rw [epIter_succ, epIter_succ]
        unfold epidemicStep
        apply mul_le_mul_of_nonneg_left ?_ (by positivity)
        apply Finset.sum_le_sum
        intro b _
        have hh1 := hfun_nonneg (eps b) _ (heps b).1 (heps b).2 (hpos1 b)
        have hhm : 1 - (1 - eps b) * Real.exp
            (-(epIter N (fun i j => x1 * M i j) eps gamma m b)) ≤
            1 - (1 - eps b) * Real.exp
              (-(epIter N (fun i j => x2 * M i j) eps gamma m b)) :=
          hfun_mono (eps b) _ _ (heps b).2 (hmono b)
        calc x1 * M a b * (1 - (1 - eps b) * Real.exp
              (-(epIter N (fun i j => x1 * M i j) eps gamma m b))) ≤
            x2 * M a b * (1 - (1 - eps b) * Real.exp
              (-(epIter N (fun i j => x1 * M i j) eps gamma m b))) := by
              apply mul_le_mul_of_nonneg_right _ hh1
              exact mul_le_mul_of_nonneg_right hx12 (hM a b)
          _ ≤ x2 * M a b * (1 - (1 - eps b) * Real.exp
              (-(epIter N (fun i j => x2 * M i j) eps gamma m b))) := by
              apply mul_le_mul_of_nonneg_left hhm
              exact mul_nonneg (le_of_lt (lt_of_lt_of_le hx1 hx12)) (hM a b)
  obtain ⟨hpos1, hpos2, hmono⟩ := key k
  refine ⟨hmono, ?_⟩
  have hsums : (∑ a ∈ range N, (1 - (1 - eps a) *
      Real.exp (-(epIter N (fun i j => x1 * M i j) eps gamma k a)))) ≤
      (∑ a ∈ range N, (1 - (1 - eps a) *
        Real.exp (-(epIter N (fun i j => x2 * M i j) eps gamma k a)))) := by
    apply Finset.sum_le_sum
    intro a _
    exact hfun_mono (eps a) _ _ (heps a).2 (hmono a)
  rcases Nat.eq_zero_or_pos N with hN | hN
  · subst hN
    simp
  · have hc : (0 : ℝ) < (N : ℝ) := by exact_mod_cast hN
    exact (div_le_div_right hc).mpr hsums

/-- Witness for claim C7 (amended) at N = 1, the all-ones matrix, seed one
half, gamma = 1, iteration count 1 and scales 1 <= 2. -/
theorem claim_C7_amended_witness :
    (∀ a, epIter 1 (fun i j => (1 : ℝ) * oneMat i j) halfVec 1 1 a ≤
        epIter 1 (fun i j => (2 : ℝ) * oneMat i j) halfVec 1 1 a) ∧
      (∑ a ∈ range 1, (1 - (1 - halfVec a) *
          Real.exp (-(epIter 1 (fun i j => (1 : ℝ) * oneMat i j) halfVec 1 1 a)))) /
          ((1 : ℕ) : ℝ) ≤
        (∑ a ∈ range 1, (1 - (1 - halfVec a) *
          Real.exp (-(epIter 1 (fun i j => (2 : ℝ) * oneMat i j) halfVec 1 1 a)))) /
          ((1 : ℕ) : ℝ) :=
  claim_C7_amended 1 oneMat halfVec 1 1 1 2 (fun a b => by norm_num [oneMat])
    (fun b => by norm_num [halfVec]) (by norm_num) (by norm_num) (by norm_num)
